import Mathlib

set_option maxRecDepth 40000

/-!
Shallow embedding of the dao-action-builder validation, normalization and
action-assembly core (packages/dao-action-builder/src): the Solidity type
grammar parser, the scalar and composite validators, the dispatch
validator, the normalizer and denormalizer, and buildAction.

JavaScript strings are modelled as Lean strings; the helper operations the
source relies on (trim, toLowerCase, BigInt string conversion, parseInt,
JSON.parse, JSON.stringify) are given explicit executable models below.
Numeric JSON literals are modelled over the integer fragment the library
exercises, and the external ABI codec is an abstract parameter.
-/

namespace DaoActionBuilder

/-! ## JavaScript string primitives -/

/-- Whitespace recognised by the JS trim / BigInt conversions. -/
def isJsWhitespace (c : Char) : Bool :=
  c = ' ' ∨ c = '\t' ∨ c = '\n' ∨ c = '\r' ∨ c = '\x0b' ∨ c = '\x0c'

/-- Drop leading and trailing whitespace from a character list. -/
def trimList (l : List Char) : List Char :=
  ((l.dropWhile isJsWhitespace).reverse.dropWhile isJsWhitespace).reverse

/-- Model of String.prototype.trim. -/
def jsTrim (s : String) : String :=
  String.mk (trimList s.data)

/-- ASCII lowercasing of one character (the inputs the library lowercases
are addresses, hex strings and boolean literals, all ASCII). -/
def toLowerChar (c : Char) : Char :=
  if 65 ≤ c.toNat ∧ c.toNat ≤ 90 then Char.ofNat (c.toNat + 32) else c

/-- Model of String.prototype.toLowerCase. -/
def jsToLower (s : String) : String :=
  String.mk (s.data.map toLowerChar)

def isDigitChar (c : Char) : Bool :=
  48 ≤ c.toNat ∧ c.toNat ≤ 57

def digitVal (c : Char) : Nat :=
  c.toNat - 48

def isHexChar (c : Char) : Bool :=
  isDigitChar c ∨ (97 ≤ c.toNat ∧ c.toNat ≤ 102) ∨ (65 ≤ c.toNat ∧ c.toNat ≤ 70)

def isLowerHexChar (c : Char) : Bool :=
  isDigitChar c ∨ (97 ≤ c.toNat ∧ c.toNat ≤ 102)

/-- Boolean test that the first list is a prefix of the second. -/
def charsPrefixOf : List Char → List Char → Bool
  | [], _ => true
  | _ :: _, [] => false
  | a :: as, b :: bs => a = b && charsPrefixOf as bs

/-- Model of String.prototype.startsWith. -/
def strStartsWith (s pre : String) : Bool :=
  charsPrefixOf pre.data s.data

/-- Model of String.prototype.slice(n) for a nonnegative start. -/
def strDrop (s : String) (n : Nat) : String :=
  String.mk (s.data.drop n)

/-- Model of Array.prototype.join(",") over strings. -/
def commaJoin : List String → String
  | [] => ""
  | [s] => s
  | s :: rest => s ++ "," ++ commaJoin rest

/-! ## Decimal rendering of integers (JS number / BigInt toString) -/

def digitChar (d : Nat) : Char :=
  Char.ofNat (48 + d)

/-- Decimal digits of a positive natural, most significant first; the fuel
bounds the recursion and any fuel at least the argument is enough. -/
def natReprAux : Nat → Nat → List Char
  | 0, _ => []
  | _ + 1, 0 => []
  | fuel + 1, n + 1 =>
    natReprAux fuel ((n + 1) / 10) ++ [digitChar ((n + 1) % 10)]

/-- Decimal rendering of a natural number. -/
def natRepr (n : Nat) : String :=
  if n = 0 then "0" else String.mk (natReprAux n n)

/-- Decimal rendering of an integer (BigInt.prototype.toString and the
rendering of integral JS numbers agree with this on the modelled range). -/
def intRepr (z : Int) : String :=
  if z < 0 then "-" ++ natRepr z.natAbs else natRepr z.natAbs

/-! ## String to integer conversions -/

/-- Value of a decimal digit string read most significant first. -/
def decDigitsToNat (l : List Char) : Nat :=
  l.foldl (fun a c => a * 10 + digitVal c) 0

/-- Parse a nonempty all-decimal-digit string. -/
def parseDecDigits (l : List Char) : Option Nat :=
  if l.isEmpty then none
  else if l.all isDigitChar then some (decDigitsToNat l) else none

def hexDigitVal (c : Char) : Nat :=
  if isDigitChar c then c.toNat - 48
  else if 97 ≤ c.toNat ∧ c.toNat ≤ 102 then c.toNat - 87
  else c.toNat - 55

def parseHexDigits (l : List Char) : Option Nat :=
  if l.isEmpty then none
  else if l.all isHexChar then
    some (l.foldl (fun a c => a * 16 + hexDigitVal c) 0)
  else none

def isBinChar (c : Char) : Bool := c = '0' ∨ c = '1'

def parseBinDigits (l : List Char) : Option Nat :=
  if l.isEmpty then none
  else if l.all isBinChar then
    some (l.foldl (fun a c => a * 2 + digitVal c) 0)
  else none

def isOctChar (c : Char) : Bool := 48 ≤ c.toNat ∧ c.toNat ≤ 55

def parseOctDigits (l : List Char) : Option Nat :=
  if l.isEmpty then none
  else if l.all isOctChar then
    some (l.foldl (fun a c => a * 8 + digitVal c) 0)
  else none

/-- The trimmed body of the BigInt(string) conversion. -/
def jsBigIntChars : List Char → Option Int
  | [] => some 0
  | c :: rest =>
    if c = '-' then (parseDecDigits rest).map (fun n => -(n : Int))
    else if c = '+' then (parseDecDigits rest).map (fun n => (n : Int))
    else if c = '0' then
      match rest with
      | [] => some 0
      | c2 :: rest2 =>
        if c2 = 'x' ∨ c2 = 'X' then (parseHexDigits rest2).map (fun n => (n : Int))
        else if c2 = 'b' ∨ c2 = 'B' then (parseBinDigits rest2).map (fun n => (n : Int))
        else if c2 = 'o' ∨ c2 = 'O' then (parseOctDigits rest2).map (fun n => (n : Int))
        else (parseDecDigits (c :: rest)).map (fun n => (n : Int))
    else (parseDecDigits (c :: rest)).map (fun n => (n : Int))

/-- Model of the BigInt(string) conversion: surrounding whitespace is
allowed, the empty string is zero, a 0x / 0b / 0o prefix selects the
radix (no sign allowed there), otherwise an optional sign followed by
decimal digits.  none models the thrown SyntaxError. -/
def jsBigInt (s : String) : Option Int :=
  jsBigIntChars (jsTrim s).data

/-- Model of parseInt(s, 10) over the strings the library feeds it: skip
leading whitespace, optional sign, then the longest digit prefix; none
models NaN. -/
def jsParseInt (s : String) : Option Int :=
  let l := s.data.dropWhile isJsWhitespace
  match l with
  | '-' :: rest =>
    let ds := rest.takeWhile isDigitChar
    if ds.isEmpty then none else some (-(decDigitsToNat ds : Int))
  | '+' :: rest =>
    let ds := rest.takeWhile isDigitChar
    if ds.isEmpty then none else some (decDigitsToNat ds : Int)
  | _ =>
    let ds := l.takeWhile isDigitChar
    if ds.isEmpty then none else some (decDigitsToNat ds : Int)

/-- parseInt(s) with the JS "|| 256" default: NaN and 0 are falsy. -/
def jsParseIntOr256 (s : String) : Int :=
  match jsParseInt s with
  | none => 256
  | some 0 => 256
  | some n => n

/-! ## JSON values (the composite literal wire format) -/

/-- JSON values as produced by JSON.parse, over the integer-numeric
fragment the library exercises. -/
inductive Json : Type where
  | null : Json
  | bool (b : Bool) : Json
  | num (n : Int) : Json
  | str (s : String) : Json
  | arr (elems : List Json) : Json
  | obj (fields : List (String × Json)) : Json
deriving Repr

def isJsonWs (c : Char) : Bool :=
  c = ' ' ∨ c = '\t' ∨ c = '\n' ∨ c = '\r'

def skipJsonWs (l : List Char) : List Char :=
  l.dropWhile isJsonWs

/-- Decode a JSON string body after the opening quote; returns the decoded
text and the characters after the closing quote. -/
def parseJsonStringAux (acc : List Char) : List Char → Option (String × List Char)
  | [] => none
  | c :: cs =>
    if c = '"' then some (String.mk acc.reverse, cs)
    else if c = '\\' then
      match cs with
      | [] => none
      | e :: cs2 =>
        if e = '"' then parseJsonStringAux ('"' :: acc) cs2
        else if e = '\\' then parseJsonStringAux ('\\' :: acc) cs2
        else if e = '/' then parseJsonStringAux ('/' :: acc) cs2
        else if e = 'n' then parseJsonStringAux ('\n' :: acc) cs2
        else if e = 't' then parseJsonStringAux ('\t' :: acc) cs2
        else if e = 'r' then parseJsonStringAux ('\r' :: acc) cs2
        else if e = 'b' then parseJsonStringAux ('\x08' :: acc) cs2
        else if e = 'f' then parseJsonStringAux ('\x0c' :: acc) cs2
        else if e = 'u' then
          match cs2 with
          | h1 :: h2 :: h3 :: h4 :: cs3 =>
            if isHexChar h1 ∧ isHexChar h2 ∧ isHexChar h3 ∧ isHexChar h4 then
              parseJsonStringAux
                (Char.ofNat (((hexDigitVal h1 * 16 + hexDigitVal h2) * 16 +
                  hexDigitVal h3) * 16 + hexDigitVal h4) :: acc) cs3
            else none
          | _ => none
        else none
    else parseJsonStringAux (c :: acc) cs

/-- Parse the items of a JSON array after the first item position, with
the value parser supplied as an argument. -/
def parseJsonItemsCore (pv : List Char → Option (Json × List Char)) :
    Nat → List Char → List Json → Option (Json × List Char)
  | 0, _, _ => none
  | fuel + 1, l, acc =>
    match pv l with
    | none => none
    | some (v, r) =>
      match skipJsonWs r with
      | ',' :: r2 => parseJsonItemsCore pv fuel r2 (v :: acc)
      | ']' :: r2 => some (.arr (v :: acc).reverse, r2)
      | _ => none

/-- Parse the fields of a JSON object after the first key position, with
the value parser supplied as an argument. -/
def parseJsonFieldsCore (pv : List Char → Option (Json × List Char)) :
    Nat → List Char → List (String × Json) → Option (Json × List Char)
  | 0, _, _ => none
  | fuel + 1, l, acc =>
    match skipJsonWs l with
    | '"' :: r0 =>
      match parseJsonStringAux [] r0 with
      | none => none
      | some (key, r1) =>
        match skipJsonWs r1 with
        | ':' :: r2 =>
          match pv r2 with
          | none => none
          | some (v, r3) =>
            match skipJsonWs r3 with
            | ',' :: r4 => parseJsonFieldsCore pv fuel r4 ((key, v) :: acc)
            | '\x7d' :: r4 => some (.obj ((key, v) :: acc).reverse, r4)
            | _ => none
        | _ => none
    | _ => none

/-- Parse one JSON value; fuel strictly decreases on every descent into a
nested value and the wrapper supplies more than enough of it. -/
def parseJsonValue : Nat → List Char → Option (Json × List Char)
  | 0, _ => none
  | fuel + 1, l =>
    match skipJsonWs l with
    | [] => none
    | c :: rest =>
      if c = 'n' then
        if charsPrefixOf ['u', 'l', 'l'] rest then some (.null, rest.drop 3) else none
      else if c = 't' then
        if charsPrefixOf ['r', 'u', 'e'] rest then some (.bool true, rest.drop 3) else none
      else if c = 'f' then
        if charsPrefixOf ['a', 'l', 's', 'e'] rest then some (.bool false, rest.drop 4) else none
      else if c = '"' then
        (parseJsonStringAux [] rest).map (fun p => (.str p.1, p.2))
      else if c = '[' then
        match skipJsonWs rest with
        | ']' :: r2 => some (.arr [], r2)
        | r1 => parseJsonItemsCore (parseJsonValue fuel) fuel r1 []
      else if c = '\x7b' then
        match skipJsonWs rest with
        | '\x7d' :: r2 => some (.obj [], r2)
        | r1 => parseJsonFieldsCore (parseJsonValue fuel) fuel r1 []
      else if c = '-' then
        let ds := rest.takeWhile isDigitChar
        if ds.isEmpty then none
        else some (.num (-(decDigitsToNat ds : Int)), rest.drop ds.length)
      else if isDigitChar c then
        let ds := (c :: rest).takeWhile isDigitChar
        some (.num (decDigitsToNat ds : Int), (c :: rest).drop ds.length)
      else none

/-- Model of JSON.parse; none models the thrown SyntaxError. -/
def jsonParse (s : String) : Option Json :=
  match parseJsonValue (2 * s.length + 4) s.data with
  | some (v, r) => if (skipJsonWs r).isEmpty then some v else none
  | none => none

def escapeJsonChar (c : Char) : List Char :=
  if c = '"' then ['\\', '"']
  else if c = '\\' then ['\\', '\\']
  else if c = '\n' then ['\\', 'n']
  else if c = '\t' then ['\\', 't']
  else if c = '\r' then ['\\', 'r']
  else [c]

/-- JSON string literal for s, quotes included. -/
def quoteJsonString (s : String) : String :=
  String.mk ('"' :: s.data.foldr (fun c acc => escapeJsonChar c ++ acc) ['"'])

mutual

/-- Model of JSON.stringify on parsed JSON values. -/
def stringifyJson : Json → String
  | .null => "null"
  | .bool b => cond b "true" "false"
  | .num n => intRepr n
  | .str s => quoteJsonString s
  | .arr l => "[" ++ commaJoin (stringifyJsonList l) ++ "]"
  | .obj l => "\x7b" ++ commaJoin (stringifyJsonFields l) ++ "\x7d"

def stringifyJsonList : List Json → List String
  | [] => []
  | j :: rest => stringifyJson j :: stringifyJsonList rest

def stringifyJsonFields : List (String × Json) → List String
  | [] => []
  | (k, j) :: rest => (quoteJsonString k ++ ":" ++ stringifyJson j) :: stringifyJsonFields rest

end

/-- The string handed to a nested validate/normalize call for an element
or field taken out of parsed JSON: objects, arrays and null (typeof
object) go through JSON.stringify, the rest through String(x). -/
def jsonToValueString (j : Json) : String :=
  match j with
  | .str s => s
  | .bool b => cond b "true" "false"
  | .num n => intRepr n
  | j => stringifyJson j

/-- Property lookup on a JSON.parse object: a duplicated key keeps its
last occurrence. -/
def jsObjLookup (fields : List (String × Json)) (key : String) : Option Json :=
  match fields with
  | [] => none
  | (k, v) :: rest =>
    match jsObjLookup rest key with
    | some r => some r
    | none => if k = key then some v else none

/-! ## Data model (src/types/index.ts) -/

/-- AbiParameter: name, type string, and optional tuple components. -/
inductive AbiParameter : Type where
  | mk (name : String) (type : String) (components : Option (List AbiParameter)) : AbiParameter
deriving Repr

def AbiParameter.name : AbiParameter → String
  | .mk n _ _ => n

def AbiParameter.type : AbiParameter → String
  | .mk _ t _ => t

def AbiParameter.components : AbiParameter → Option (List AbiParameter)
  | .mk _ _ c => c

/-- ParameterValue: string, boolean, bigint, array, or name-keyed tuple.
nullish stands for the JS undefined that a non-null assertion can leak. -/
inductive ParameterValue : Type where
  | str (s : String) : ParameterValue
  | bool (b : Bool) : ParameterValue
  | int (n : Int) : ParameterValue
  | arr (l : List ParameterValue) : ParameterValue
  | obj (l : List (String × ParameterValue)) : ParameterValue
  | nullish : ParameterValue
deriving Repr

/-- ParameterValidationResult. -/
structure ParameterValidationResult : Type where
  isValid : Bool
  error : Option String := none
  normalizedValue : Option ParameterValue := none
deriving Repr

/-- The invalid outcome carrying an error message. -/
def ParameterValidationResult.mkErr (e : String) : ParameterValidationResult :=
  { isValid := false, error := some e }

/-- The valid outcome carrying a normalized value. -/
def ParameterValidationResult.mkOk (v : ParameterValue) : ParameterValidationResult :=
  { isValid := true, normalizedValue := some v }

/-- ParsedType; a none dimension is the dynamic marker (null). -/
structure ParsedType : Type where
  baseType : String
  isArray : Bool
  arrayDimensions : List (Option Nat)
  isTuple : Bool
deriving Repr, DecidableEq

/-! ## Type grammar parser (parseType, validators.ts lines 18-52) -/

/-- Split a character list at the first opening bracket: returns the part
before it and the remainder beginning with that bracket. -/
def breakAtBracket : List Char → Option (List Char × List Char)
  | [] => none
  | c :: cs =>
    if c = '[' then some ([], c :: cs)
    else
      match breakAtBracket cs with
      | some (pre, suf) => some (c :: pre, suf)
      | none => none

/-- Model of matching ARRAY_TYPE_REGEX (lazy nonempty group, then a
bracket group running to the end): succeeds when some bracket occurs at
index at least 1 and the string ends with a closing bracket, splitting at
the first such bracket. -/
def arrayTypeSplit (l : List Char) : Option (List Char × List Char) :=
  match l with
  | [] => none
  | c0 :: rest =>
    if l.getLast? = some ']' then
      match breakAtBracket rest with
      | some (pre, suf) => some (c0 :: pre, suf)
      | none => none
    else none

/-- One pass of the global ARRAY_DIMENSION_REGEX scan composed with the
per-dimension FIXED_DIMENSION_REGEX: every bracketed digit group in
left-to-right order, none for an empty (dynamic) group.  Every step
consumes at least one character, so fuel equal to the length is enough. -/
def scanDimensionsAux : Nat → List Char → List (Option Nat)
  | 0, _ => []
  | _ + 1, [] => []
  | fuel + 1, c :: cs =>
    if c = '[' then
      let ds := cs.takeWhile isDigitChar
      match cs.drop ds.length with
      | ']' :: rest2 =>
        (if ds.isEmpty then none else some (decDigitsToNat ds)) :: scanDimensionsAux fuel rest2
      | _ => scanDimensionsAux fuel cs
    else scanDimensionsAux fuel cs

def scanDimensions (l : List Char) : List (Option Nat) :=
  scanDimensionsAux l.length l

/-- parseType: tuple detection, then the array-suffix split and the
dimension scan, outer baseType overwritten by the split result. -/
def parseType (type : String) : ParsedType :=
  let isTup := type = "tuple" ∨ strStartsWith type "tuple["
  match arrayTypeSplit type.data with
  | some (pre, suf) =>
    let baseType := String.mk pre
    { baseType := baseType
      isArray := true
      arrayDimensions := scanDimensions suf
      isTuple := isTup ∨ baseType = "tuple" }
  | none =>
    { baseType := if isTup then "tuple" else type
      isArray := false
      arrayDimensions := []
      isTuple := isTup }

/-- Re-rendering of the remaining dimensions when synthesizing the inner
element type of a nested array. -/
def renderDims (dims : List (Option Nat)) : String :=
  dims.foldl (fun acc d => acc ++ "[" ++ (match d with | some n => natRepr n | none => "") ++ "]") ""

/-- The synthesized element type used by the array recursion in
validateParameterType, normalizeParameterValue and
denormalizeParameterValue (the identical snippet in all three). -/
def innerTypeOf (parsed : ParsedType) : String :=
  if parsed.arrayDimensions.length > 1 then
    parsed.baseType ++ renderDims (parsed.arrayDimensions.drop 1)
  else parsed.baseType

/-! ## Scalar validators (validators.ts lines 57-171) -/

/-- Check of ADDRESS_REGEX on an already lowercased string. -/
def addressRegexTest (s : String) : Bool :=
  match s.data with
  | '0' :: 'x' :: rest => rest.length = 40 && rest.all isLowerHexChar
  | _ => false

/-- validateAddress: nonempty, lowercased, 0x plus 40 lowercase hex. -/
def validateAddress (value : String) : ParameterValidationResult :=
  if value = "" then .mkErr "Address is required"
  else
    let lowerValue := jsToLower value
    if addressRegexTest lowerValue then .mkOk (.str lowerValue)
    else .mkErr "Invalid Ethereum address. Must be 40 hex characters starting with 0x"

/-- validateUint: no surrounding whitespace, BigInt parse, nonnegative and
within 2 to the bits minus 1.  A negative bits makes the BigInt power
throw a RangeError, landing in the catch branch. -/
def validateUint (value : String) (bits : Int := 256) : ParameterValidationResult :=
  if value = "" ∨ jsTrim value ≠ value then
    .mkErr "Invalid number format (no spaces allowed)"
  else
    match jsBigInt value with
    | none => .mkErr "Invalid number format"
    | some num =>
      if num < 0 then .mkErr "Must be a non-negative number"
      else if bits < 0 then .mkErr "Invalid number format"
      else if num > 2 ^ bits.toNat - 1 then
        .mkErr ("Value exceeds uint" ++ intRepr bits ++ " max")
      else .mkOk (.int num)

/-- validateInt: no surrounding whitespace, BigInt parse, within the
two-sided bits-wide range; bits below 1 makes the power throw. -/
def validateInt (value : String) (bits : Int := 256) : ParameterValidationResult :=
  if value = "" ∨ jsTrim value ≠ value then
    .mkErr "Invalid number format (no spaces allowed)"
  else
    match jsBigInt value with
    | none => .mkErr "Invalid number format"
    | some num =>
      if bits - 1 < 0 then .mkErr "Invalid number format"
      else if num > 2 ^ (bits - 1).toNat - 1 ∨ num < -(2 ^ (bits - 1).toNat : Int) then
        .mkErr ("Value out of range for int" ++ intRepr bits)
      else .mkOk (.int num)

/-- validateBool: lowercase then trim, only the two literals. -/
def validateBool (value : String) : ParameterValidationResult :=
  let normalized := jsTrim (jsToLower value)
  if normalized = "true" then .mkOk (.bool true)
  else if normalized = "false" then .mkOk (.bool false)
  else .mkErr "Must be \"true\" or \"false\""

/-- The fixed length handed to validateBytes: absent for bare bytes, and
for bytesN the parseInt result, where none models NaN. -/
inductive BytesLength : Type where
  | nan : BytesLength
  | int (n : Int) : BytesLength
deriving Repr, DecidableEq

/-- Check of HEX_STRING_REGEX: a 0x prefix and any-case hex thereafter. -/
def hexStringTest (s : String) : Bool :=
  match s.data with
  | '0' :: 'x' :: rest => rest.all isHexChar
  | _ => false

/-- validateBytes: 0x prefix, hex body, and for a fixed length an exact
byte-count match followed by the 32-byte ceiling.  The byte length is the
JS float (value.length - 2) / 2; both comparisons against it are carried
out exactly on the doubled value. -/
def validateBytes (value : String) (fixedLength : Option BytesLength := none) :
    ParameterValidationResult :=
  if value = "" then .mkErr "Bytes value is required"
  else if ¬ strStartsWith value "0x" then .mkErr "Must start with 0x"
  else if ¬ hexStringTest value then .mkErr "Invalid hex string"
  else
    let byteLen2 : Int := (value.length : Int) - 2
    match fixedLength with
    | none => .mkOk (.str value)
    | some .nan => .mkErr "Must be exactly NaN bytes"
    | some (.int n) =>
      if byteLen2 ≠ 2 * n then .mkErr ("Must be exactly " ++ intRepr n ++ " bytes")
      else if byteLen2 > 64 then .mkErr "Fixed bytes cannot exceed 32"
      else .mkOk (.str value)

/-- validateString: always valid, value unchanged. -/
def validateString (value : String) : ParameterValidationResult :=
  .mkOk (.str value)

/-! ## Composite validators and dispatch (validators.ts lines 176-356)

The three functions are mutually recursive through the synthesized inner
type; the recursion is carried by an explicit fuel on the dispatcher, and
the two composite bodies are written against an abstract recursive callee
so their behaviour can be stated for every unfolding depth. -/

abbrev Validator :=
  String → String → Option (List AbiParameter) → ParameterValidationResult

/-- The element loop of validateArray: each parsed element re-serialized
to text, validated against the element type, first failure reported with
its zero-based index, successes collected in order.  The non-null
assertion on normalizedValue is modelled by getD nullish. -/
def validateElemsCore (recur : Validator) (elementType : String)
    (components : Option (List AbiParameter)) :
    List Json → Nat → List ParameterValue → ParameterValidationResult
  | [], _, acc => .mkOk (.arr acc.reverse)
  | e :: rest, i, acc =>
    if (recur (jsonToValueString e) elementType components).isValid then
      validateElemsCore recur elementType components rest (i + 1)
        ((recur (jsonToValueString e) elementType components).normalizedValue.getD .nullish :: acc)
    else
      .mkErr ("Invalid element at index " ++ natRepr i ++ ": " ++
        ((recur (jsonToValueString e) elementType components).error.getD "undefined"))

/-- validateArray body: JSON parse (failure caught as the array-format
error), array shape check, optional exact outer length, then the element
loop. -/
def validateArrayCore (recur : Validator) (value : String) (elementType : String)
    (components : Option (List AbiParameter)) (expectedLength : Option Nat) :
    ParameterValidationResult :=
  match jsonParse value with
  | none => .mkErr "Invalid JSON array format"
  | some parsed =>
    match parsed with
    | .arr elems =>
      match expectedLength with
      | some n =>
        if elems.length ≠ n then
          .mkErr ("Array must have exactly " ++ natRepr n ++ " elements")
        else validateElemsCore recur elementType components elems 0 []
      | none => validateElemsCore recur elementType components elems 0 []
    | _ => .mkErr "Must be a valid JSON array"

/-- The field loop of validateTuple: components in declaration order, a
missing key (property undefined) reported first, a present field
re-serialized and validated, successes collected keyed by name in
declaration order. -/
def validateFieldsCore (recur : Validator) (fields : List (String × Json)) :
    List AbiParameter → List (String × ParameterValue) → ParameterValidationResult
  | [], acc => .mkOk (.obj acc.reverse)
  | comp :: rest, acc =>
    match jsObjLookup fields comp.name with
    | none => .mkErr ("Missing required field: " ++ comp.name)
    | some componentValue =>
      if (recur (jsonToValueString componentValue) comp.type comp.components).isValid then
        validateFieldsCore recur fields rest
          ((comp.name,
            (recur (jsonToValueString componentValue) comp.type comp.components).normalizedValue.getD
              .nullish) :: acc)
      else
        .mkErr ("Invalid field \"" ++ comp.name ++ "\": " ++
          ((recur (jsonToValueString componentValue) comp.type comp.components).error.getD
            "undefined"))

/-- validateTuple body: JSON parse (failure caught as the object-format
error), object shape check (null and arrays excluded), then the field
loop. -/
def validateTupleCore (recur : Validator) (value : String)
    (components : List AbiParameter) : ParameterValidationResult :=
  match jsonParse value with
  | none => .mkErr "Invalid JSON object format"
  | some parsed =>
    match parsed with
    | .obj fields => validateFieldsCore recur fields components []
    | _ => .mkErr "Must be a valid JSON object"

/-- validateParameterType at explicit unfolding depth: parse the type,
route arrays (outer fixed length from dimension 0 only, elements against
the synthesized inner type), tuples (components required and nonempty),
then the scalar dispatch by base-type prefix with the 256-bit default,
unknown base types passing through as valid. -/
def validateParameterTypeF : Nat → Validator
  | 0, _, _, _ => .mkErr "Recursion limit exceeded"
  | fuel + 1, value, type, components =>
    let parsed := parseType type
    if parsed.isArray then
      let expectedLength := parsed.arrayDimensions.head?.join
      validateArrayCore (validateParameterTypeF fuel) value (innerTypeOf parsed)
        components expectedLength
    else if parsed.isTuple then
      match components with
      | none => .mkErr "Tuple components are required"
      | some comps =>
        if comps.isEmpty then .mkErr "Tuple components are required"
        else validateTupleCore (validateParameterTypeF fuel) value comps
    else if parsed.baseType = "address" then validateAddress value
    else if strStartsWith parsed.baseType "uint" then
      validateUint value (jsParseIntOr256 (strDrop parsed.baseType 4))
    else if strStartsWith parsed.baseType "int" then
      validateInt value (jsParseIntOr256 (strDrop parsed.baseType 3))
    else if parsed.baseType = "bool" then validateBool value
    else if parsed.baseType = "bytes" then validateBytes value none
    else if strStartsWith parsed.baseType "bytes" then
      validateBytes value (some (match jsParseInt (strDrop parsed.baseType 5) with
        | none => .nan
        | some n => .int n))
    else if parsed.baseType = "string" then validateString value
    else .mkOk (.str value)

mutual

/-- Structural size of a component descriptor. -/
def apSize : AbiParameter → Nat
  | .mk _ t c => t.length + apSizeOpt c + 1

/-- Structural size of an optional component tree. -/
def apSizeOpt : Option (List AbiParameter) → Nat
  | none => 0
  | some l => apSizeList l

/-- Structural size of a component list. -/
def apSizeList : List AbiParameter → Nat
  | [] => 0
  | p :: rest => apSize p + apSizeList rest

end

/-- Fuel that covers the recursion depth of every dispatch chain starting
from the given type and components: every array level strips at least one
bracket group from the type and every tuple level moves into a strictly
smaller component tree. -/
def validatorFuel (type : String) (components : Option (List AbiParameter)) : Nat :=
  type.length + apSizeOpt components + 1

/-- validateParameterType, the public dispatch entry point. -/
def validateParameterType (value type : String)
    (components : Option (List AbiParameter) := none) : ParameterValidationResult :=
  validateParameterTypeF (validatorFuel type components) value type components

/-- validateArray, the public array validator. -/
def validateArray (value elementType : String)
    (components : Option (List AbiParameter) := none)
    (expectedLength : Option Nat := none) : ParameterValidationResult :=
  validateArrayCore (validateParameterTypeF (validatorFuel elementType components))
    value elementType components expectedLength

/-- validateTuple, the public tuple validator. -/
def validateTuple (value : String) (components : List AbiParameter) :
    ParameterValidationResult :=
  validateTupleCore (validateParameterTypeF (validatorFuel "" (some components)))
    value components

/-! ## Normalizer (normalizers.ts lines 8-97) -/

abbrev Normalizer :=
  String → String → Option (List AbiParameter) → Except String ParameterValue

/-- The element loop of the normalize array branch. -/
def normalizeElems (norm : Normalizer) (innerType : String)
    (components : Option (List AbiParameter)) : List Json → Except String (List ParameterValue)
  | [] => .ok []
  | e :: rest => do
    let v ← norm (jsonToValueString e) innerType components
    let vs ← normalizeElems norm innerType components rest
    .ok (v :: vs)

/-- Property lookup on the parsed tuple payload: only an object carries
named fields; on null the access itself throws. -/
def tupleLookup (j : Json) (key : String) : Option Json :=
  match j with
  | .obj fields => jsObjLookup fields key
  | _ => none

/-- The component loop of the normalize tuple branch: positional values
in declaration order, a missing name thrown, a null payload throwing a
TypeError at the first access. -/
def normalizeFields (norm : Normalizer) (j : Json) :
    List AbiParameter → Except String (List ParameterValue)
  | [] => .ok []
  | comp :: rest =>
    match j with
    | .null => .error "TypeError"
    | _ =>
      match tupleLookup j comp.name with
      | none => .error ("Missing tuple field: " ++ comp.name)
      | some compValue => do
        let v ← norm (jsonToValueString compValue) comp.type comp.components
        let vs ← normalizeFields norm j rest
        .ok (v :: vs)

/-- normalizeParameterValue at explicit unfolding depth: arrays map the
recursion over the parsed elements, tuples (with components supplied)
build the positional sequence in declaration order, addresses lowercase,
integers pass the raw text through, booleans compare the lowercased text
to true, everything else passes through.  Thrown errors are the error
branch. -/
def normalizeParameterValueF : Nat → Normalizer
  | 0, _, _, _ => .error "Recursion limit exceeded"
  | fuel + 1, value, type, components =>
    let parsed := parseType type
    if parsed.isArray then
      match jsonParse value with
      | none => .error ("Invalid JSON array for type " ++ type)
      | some j =>
        match j with
        | .arr elems =>
          (normalizeElems (normalizeParameterValueF fuel) (innerTypeOf parsed)
            components elems).map ParameterValue.arr
        | _ => .error "TypeError"
    else if parsed.isTuple && components.isSome then
      match jsonParse value with
      | none => .error "Invalid JSON object for tuple"
      | some j =>
        (normalizeFields (normalizeParameterValueF fuel) j
          (components.getD [])).map ParameterValue.arr
    else
      if parsed.baseType = "address" then .ok (.str (jsToLower value))
      else if strStartsWith parsed.baseType "uint" ∨ strStartsWith parsed.baseType "int" then
        .ok (.str value)
      else if parsed.baseType = "bool" then .ok (.bool (jsToLower value = "true"))
      else if parsed.baseType = "bytes" ∨ strStartsWith parsed.baseType "bytes" then
        .ok (.str value)
      else if parsed.baseType = "string" then .ok (.str value)
      else .ok (.str value)

/-- normalizeParameterValue, the public entry point. -/
def normalizeParameterValue (value type : String)
    (components : Option (List AbiParameter) := none) : Except String ParameterValue :=
  normalizeParameterValueF (validatorFuel type components) value type components

/-! ## Denormalizer (normalizers.ts lines 102-145) -/

mutual

/-- String(x) on a decoded value, as the final fallback renders it:
Array.prototype.toString joins with commas (null and undefined entries
empty), objects render as the object tag. -/
def pvDisplay : ParameterValue → String
  | .str s => s
  | .bool b => cond b "true" "false"
  | .int n => intRepr n
  | .nullish => "undefined"
  | .arr l => commaJoin (pvDisplayList l)
  | .obj _ => "[object Object]"

def pvDisplayList : List ParameterValue → List String
  | [] => []
  | .nullish :: rest => "" :: pvDisplayList rest
  | v :: rest => pvDisplay v :: pvDisplayList rest

end

mutual

/-- Structural size of a decoded value, bounding the denormalizer's
recursion depth. -/
def pvSize : ParameterValue → Nat
  | .str _ => 1
  | .bool _ => 1
  | .int _ => 1
  | .nullish => 1
  | .arr l => 1 + pvSizeList l
  | .obj l => 1 + pvSizeFields l

def pvSizeList : List ParameterValue → Nat
  | [] => 0
  | v :: rest => pvSize v + pvSizeList rest

def pvSizeFields : List (String × ParameterValue) → Nat
  | [] => 0
  | (_, v) :: rest => pvSize v + pvSizeFields rest

end

/-- Zip the decoded positional values with the component declarations by
index, denormalizing with the supplied function; an index past the end
reads undefined, which denormalizes to the empty string. -/
def denormalizeZipCore (denorm : ParameterValue → String → Option (List AbiParameter) → String) :
    List AbiParameter → List ParameterValue → List (String × String)
  | [], _ => []
  | comp :: rest, [] => (comp.name, "") :: denormalizeZipCore denorm rest []
  | comp :: rest, v :: vs =>
    (comp.name, denorm v comp.type comp.components) :: denormalizeZipCore denorm rest vs

/-- denormalizeParameterValue at explicit recursion depth: arrays
stringify the recursively denormalized elements as a JSON array, tuples
zip decoded positional values with component names into a JSON object,
bigints and booleans render exactly, null and undefined render empty,
the rest via String. -/
def denormalizeParameterValueF : Nat → ParameterValue → String →
    Option (List AbiParameter) → String
  | 0, _, _, _ => ""
  | fuel + 1, value, type, components =>
    let parsed := parseType type
    match value with
    | .arr l =>
      if parsed.isArray then
        stringifyJson (.arr
          ((l.map (fun v => denormalizeParameterValueF fuel v (innerTypeOf parsed) components)).map
            Json.str))
      else
        match components with
        | some comps =>
          if parsed.isTuple then
            stringifyJson (.obj
              ((denormalizeZipCore (denormalizeParameterValueF fuel) comps l).map
                (fun p => (p.1, Json.str p.2))))
          else pvDisplay (.arr l)
        | none => pvDisplay (.arr l)
    | .int n => intRepr n
    | .bool b => cond b "true" "false"
    | .nullish => ""
    | .str s => s
    | .obj _ => "[object Object]"

/-- denormalizeParameterValue, the public entry point; the decoded
value's own nesting bounds the recursion depth. -/
def denormalizeParameterValue (value : ParameterValue) (type : String)
    (components : Option (List AbiParameter) := none) : String :=
  denormalizeParameterValueF (pvSize value) value type components

/-! ## Action assembly (core/abi-utils.ts, calldata-encoder.ts, action-builder.ts) -/

/-- An ABI function descriptor (the fields action assembly reads). -/
structure AbiFunction : Type where
  name : String
  inputs : List AbiParameter
  stateMutability : String := "nonpayable"
deriving Repr

/-- isValidAddress from abi-utils: 0x plus 40 any-case hex digits. -/
def isValidAddress (address : String) : Bool :=
  match address.data with
  | '0' :: 'x' :: rest => rest.length = 40 && rest.all isHexChar
  | _ => false

/-- getFunctionSignature: name(type,type,...), comma-joined declared
type strings. -/
def getFunctionSignature (fn : AbiFunction) : String :=
  fn.name ++ "(" ++ commaJoin (fn.inputs.map (fun i => i.type)) ++ ")"

/-- findFunctionBySignature: first ABI entry whose canonical signature
matches exactly. -/
def findFunctionBySignature (signature : String) (abi : List AbiFunction) :
    Option AbiFunction :=
  abi.find? (fun fn => getFunctionSignature fn = signature)

/-- Lookup in the caller-supplied parameter map (a JS object literal of
parameter name to value text; a duplicated key keeps its last value). -/
def paramLookup (parameters : List (String × String)) (key : String) : Option String :=
  match parameters with
  | [] => none
  | (k, v) :: rest =>
    match paramLookup rest key with
    | some r => some r
    | none => if k = key then some v else none

/-- prepareParametersForEncoding: each declared input looked up by name
(a missing one thrown) and normalized in order. -/
def prepareParametersForEncoding (parameters : List (String × String)) :
    List AbiParameter → Except String (List ParameterValue)
  | [] => .ok []
  | input :: rest =>
    match paramLookup parameters input.name with
    | none => .error ("Missing parameter: " ++ input.name)
    | some value => do
      let v ← normalizeParameterValue value input.type input.components
      let vs ← prepareParametersForEncoding parameters rest
      .ok (v :: vs)

inductive ActionBuilderErrorCode : Type where
  | invalidAddress
  | functionNotFound
  | invalidParameter
  | encodingFailed
deriving Repr, DecidableEq

structure ActionBuilderError : Type where
  message : String
  code : ActionBuilderErrorCode
deriving Repr

structure EncodeCalldataResult : Type where
  calldata : String
  functionSignature : String
deriving Repr

/-- The external binary codec (ethers Interface.encodeFunctionData):
a single function descriptor and positional normalized arguments in, hex
calldata out, a thrown failure as the error branch. -/
abbrev Codec := AbiFunction → List ParameterValue → Except String String

/-- encodeCalldata: resolve the function by signature, prepare the
normalized positional arguments, run the codec; anything thrown becomes
the ENCODING_FAILED kind. -/
def encodeCalldata (codec : Codec) (abi : List AbiFunction) (functionSignature : String)
    (parameters : List (String × String)) : Except ActionBuilderError EncodeCalldataResult :=
  match findFunctionBySignature functionSignature abi with
  | none =>
    .error ⟨"Function not found: " ++ functionSignature, .functionNotFound⟩
  | some func =>
    match prepareParametersForEncoding parameters func.inputs with
    | .error msg =>
      .error ⟨"Failed to encode calldata: " ++ msg, .encodingFailed⟩
    | .ok encodedParams =>
      match codec func encodedParams with
      | .error msg =>
        .error ⟨"Failed to encode calldata: " ++ msg, .encodingFailed⟩
      | .ok calldata => .ok ⟨calldata, getFunctionSignature func⟩

structure Action : Type where
  contractAddress : String
  functionSignature : String
  functionName : String
  calldata : String
  abi : List AbiFunction
  value : Option Int
deriving Repr

structure BuildActionInput : Type where
  contractAddress : String
  functionSignature : String
  parameters : List (String × String)
  abi : List AbiFunction
  value : Option Int := none

/-- The parameter gate of buildAction: declared inputs in order, a
missing map entry failing with the parameter name, a present value run
through the dispatch validator. -/
def checkParameters (parameters : List (String × String)) :
    List AbiParameter → Option ActionBuilderError
  | [] => none
  | p :: rest =>
    match paramLookup parameters p.name with
    | none => some ⟨"Missing parameter: " ++ p.name, .invalidParameter⟩
    | some value =>
      if (validateParameterType value p.type p.components).isValid then
        checkParameters parameters rest
      else
        some ⟨"Invalid parameter " ++ p.name ++ ": " ++
          ((validateParameterType value p.type p.components).error.getD "undefined"),
          .invalidParameter⟩

/-- buildAction: address gate, signature resolution, the parameter gate,
encoding, then the Action assembled with the lowercased address and the
single resolved descriptor. -/
def buildAction (codec : Codec) (input : BuildActionInput) :
    Except ActionBuilderError Action :=
  if ¬ isValidAddress input.contractAddress then
    .error ⟨"Invalid contract address", .invalidAddress⟩
  else
    match findFunctionBySignature input.functionSignature input.abi with
    | none =>
      .error ⟨"Function not found: " ++ input.functionSignature, .functionNotFound⟩
    | some func =>
      match checkParameters input.parameters func.inputs with
      | some e => .error e
      | none =>
        match encodeCalldata codec input.abi input.functionSignature input.parameters with
        | .error e => .error e
        | .ok encodeResult =>
          .ok
            { contractAddress := jsToLower input.contractAddress
              functionSignature := encodeResult.functionSignature
              functionName := func.name
              calldata := encodeResult.calldata
              abi := [func]
              value := input.value }

/-- A validation outcome of the shape the source always produces: valid
with a normalized value and no error, or invalid with an error and no
normalized value (never an exception, never both). -/
def wellFormedOutcome (r : ParameterValidationResult) : Prop :=
  (r.isValid = true ∧ r.error = none ∧ ∃ v, r.normalizedValue = some v) ∨
  (r.isValid = false ∧ r.normalizedValue = none ∧ ∃ e, r.error = some e)

/-! ## Supporting lemmas: characters, digits and decimal rendering -/

theorem charToNat_ofNat {m : Nat} (h : m < 55296) : (Char.ofNat m).toNat = m := by
  simp [Char.ofNat, Char.ofNatAux, Nat.isValidChar, h, Char.toNat, UInt32.toNat,
    BitVec.toNat_ofNatLt]

theorem digitChar_isDigit {d : Nat} (h : d < 10) : isDigitChar (digitChar d) = true := by
  simp only [digitChar, isDigitChar, charToNat_ofNat (show 48 + d < 55296 by omega)]
  simp
  omega

theorem digitVal_digitChar {d : Nat} (h : d < 10) : digitVal (digitChar d) = d := by
  simp only [digitChar, digitVal, charToNat_ofNat (show 48 + d < 55296 by omega)]
  omega

theorem natReprAux_zero (fuel : Nat) : natReprAux fuel 0 = [] := by
  cases fuel <;> rfl

theorem decDigits_append (l : List Char) (c : Char) :
    decDigitsToNat (l ++ [c]) = 10 * decDigitsToNat l + digitVal c := by
  simp [decDigitsToNat, List.foldl_append]
  omega

theorem natReprAux_correct :
    ∀ fuel n, n ≤ fuel →
      (natReprAux fuel n).all isDigitChar = true ∧ decDigitsToNat (natReprAux fuel n) = n := by
  intro fuel
  induction fuel with
  | zero =>
    intro n h
    have : n = 0 := by omega
    subst this
    exact ⟨rfl, rfl⟩
  | succ f ih =>
    intro n h
    match n with
    | 0 => exact ⟨by simp [natReprAux_zero], by simp [natReprAux_zero, decDigitsToNat]⟩
    | m + 1 =>
      have hdiv : (m + 1) / 10 < m + 1 := Nat.div_lt_self (Nat.succ_pos m) (by norm_num)
      have hd : (m + 1) / 10 ≤ f := by omega
      obtain ⟨ha, hb⟩ := ih ((m + 1) / 10) hd
      have hm : (m + 1) % 10 < 10 := Nat.mod_lt _ (by norm_num)
      constructor
      · rw [natReprAux, List.all_append]
        simp [ha, digitChar_isDigit hm]
      · rw [natReprAux, decDigits_append, hb, digitVal_digitChar hm]
        omega

theorem natRepr_all_digits (n : Nat) : (natRepr n).data.all isDigitChar = true := by
  by_cases h : n = 0
  · subst h; rfl
  · rw [natRepr, if_neg h]
    exact (natReprAux_correct n n Nat.le.refl).1

theorem decDigitsToNat_natRepr (n : Nat) : decDigitsToNat (natRepr n).data = n := by
  by_cases h : n = 0
  · subst h; rfl
  · rw [natRepr, if_neg h]
    exact (natReprAux_correct n n Nat.le.refl).2

theorem natRepr_data_ne_nil (n : Nat) : (natRepr n).data ≠ [] := by
  by_cases h : n = 0
  · subst h; simp [natRepr]
  · intro hnil
    have := decDigitsToNat_natRepr n
    rw [hnil] at this
    exact h (by simpa [decDigitsToNat] using this.symm)

theorem isDigitChar_not_ws {c : Char} (h : isDigitChar c = true) :
    isJsWhitespace c = false := by
  have hn : 48 ≤ c.toNat ∧ c.toNat ≤ 57 := by simpa [isDigitChar] using h
  have hne : ∀ m : Nat, m < 48 → c ≠ Char.ofNat m := by
    intro m hm he
    rw [he, charToNat_ofNat (by omega)] at hn
    omega
  simp only [isJsWhitespace]
  simp only [show (' ' : Char) = Char.ofNat 32 from rfl, show ('\t' : Char) = Char.ofNat 9 from rfl,
    show ('\n' : Char) = Char.ofNat 10 from rfl, show ('\r' : Char) = Char.ofNat 13 from rfl,
    show ('\x0b' : Char) = Char.ofNat 11 from rfl, show ('\x0c' : Char) = Char.ofNat 12 from rfl]
  simp [hne 32 (by norm_num), hne 9 (by norm_num), hne 10 (by norm_num),
    hne 13 (by norm_num), hne 11 (by norm_num), hne 12 (by norm_num)]

theorem dropWhile_eq_self {p : Char → Bool} :
    ∀ {l : List Char}, (∀ c ∈ l, p c = false) → l.dropWhile p = l
  | [], _ => rfl
  | c :: cs, h => by
    simp [List.dropWhile, h c (List.mem_cons_self c cs)]

theorem trimList_eq_self {l : List Char} (h : ∀ c ∈ l, isJsWhitespace c = false) :
    trimList l = l := by
  unfold trimList
  rw [dropWhile_eq_self h, dropWhile_eq_self (by intro c hc; exact h c (List.mem_reverse.mp hc)),
    List.reverse_reverse]

theorem jsTrim_eq_self {s : String} (h : ∀ c ∈ s.data, isJsWhitespace c = false) :
    jsTrim s = s := by
  unfold jsTrim
  rw [trimList_eq_self h]

theorem digit_ne_of_toNat {c : Char} (h : isDigitChar c = true) {m : Nat}
    (hm : m < 55296) (hne : ¬(48 ≤ m ∧ m ≤ 57)) : c ≠ Char.ofNat m := by
  intro he
  have hn : 48 ≤ c.toNat ∧ c.toNat ≤ 57 := by simpa [isDigitChar] using h
  rw [he, charToNat_ofNat hm] at hn
  exact hne hn

theorem jsBigIntChars_digits {l : List Char} (h1 : l ≠ [])
    (h2 : l.all isDigitChar = true) : jsBigIntChars l = some (decDigitsToNat l : Int) := by
  match l, h1 with
  | c :: cs, _ =>
    have hc : isDigitChar c = true := by
      have := List.all_eq_true.mp h2 c (List.mem_cons_self c cs)
      simpa using this
    have hdash : c ≠ '-' := digit_ne_of_toNat hc (by norm_num) (by norm_num)
    have hplus : c ≠ '+' := digit_ne_of_toNat hc (by norm_num) (by norm_num)
    have hdec : parseDecDigits (c :: cs) = some (decDigitsToNat (c :: cs)) := by
      simp [parseDecDigits, h2]
    by_cases hzero : c = '0'
    · subst hzero
      match cs with
      | [] =>
        simp [jsBigIntChars, decDigitsToNat, digitVal]
      | c2 :: cs2 =>
        have hc2 : isDigitChar c2 = true := by
          have := List.all_eq_true.mp h2 c2 (by simp)
          simpa using this
        have hx : c2 ≠ 'x' := digit_ne_of_toNat hc2 (by norm_num) (by norm_num)
        have hX : c2 ≠ 'X' := digit_ne_of_toNat hc2 (by norm_num) (by norm_num)
        have hb : c2 ≠ 'b' := digit_ne_of_toNat hc2 (by norm_num) (by norm_num)
        have hB : c2 ≠ 'B' := digit_ne_of_toNat hc2 (by norm_num) (by norm_num)
        have ho : c2 ≠ 'o' := digit_ne_of_toNat hc2 (by norm_num) (by norm_num)
        have hO : c2 ≠ 'O' := digit_ne_of_toNat hc2 (by norm_num) (by norm_num)
        simp only [jsBigIntChars, if_neg hdash, if_neg hplus, if_pos rfl]
        simp [hx, hX, hb, hB, ho, hO, hdec]
    · simp only [jsBigIntChars, if_neg hdash, if_neg hplus, if_neg hzero]
      simp [hdec]

theorem jsTrim_of_digits {l : List Char} (h : l.all isDigitChar = true) :
    jsTrim (String.mk l) = String.mk l :=
  jsTrim_eq_self (by
    intro c hc
    exact isDigitChar_not_ws (by simpa using List.all_eq_true.mp h c hc))

theorem jsBigInt_natRepr (n : Nat) : jsBigInt (natRepr n) = some (n : Int) := by
  have hall := natRepr_all_digits n
  have hne := natRepr_data_ne_nil n
  have hmk : String.mk (natRepr n).data = natRepr n := rfl
  unfold jsBigInt
  rw [show jsTrim (natRepr n) = natRepr n from hmk ▸ jsTrim_of_digits hall,
    jsBigIntChars_digits hne hall, decDigitsToNat_natRepr n]

theorem dash_not_ws : isJsWhitespace '-' = false := by decide

theorem intRepr_nonneg {z : Int} (h : 0 ≤ z) : intRepr z = natRepr z.natAbs := by
  rw [intRepr, if_neg (by omega)]

theorem jsBigInt_intRepr (z : Int) : jsBigInt (intRepr z) = some z := by
  by_cases hz : z < 0
  · have hdata : (intRepr z).data = '-' :: (natRepr z.natAbs).data := by
      rw [intRepr, if_pos hz]
      rfl
    have hall := natRepr_all_digits z.natAbs
    have hne := natRepr_data_ne_nil z.natAbs
    unfold jsBigInt
    have htrim : jsTrim (intRepr z) = intRepr z := by
      apply jsTrim_eq_self
      intro c hc
      rw [hdata] at hc
      rcases List.mem_cons.mp hc with hc | hc
      · rw [hc]; exact dash_not_ws
      · exact isDigitChar_not_ws (by simpa using List.all_eq_true.mp hall c hc)
    rw [htrim, hdata]
    have hdd : isDigitChar '-' = false := by decide
    simp only [jsBigIntChars, if_pos rfl]
    rw [show parseDecDigits (natRepr z.natAbs).data =
        some (decDigitsToNat (natRepr z.natAbs).data) by simp [parseDecDigits, hall, hne],
      decDigitsToNat_natRepr]
    have habs : (z.natAbs : Int) = -z := by omega
    simp [habs]
  · rw [intRepr_nonneg (by omega), jsBigInt_natRepr]
    congr 1
    omega

theorem intRepr_no_ws (z : Int) : ∀ c ∈ (intRepr z).data, isJsWhitespace c = false := by
  intro c hc
  by_cases hz : z < 0
  · rw [intRepr, if_pos hz] at hc
    rcases List.mem_cons.mp (by simpa using hc) with hc | hc
    · rw [hc]; exact dash_not_ws
    · exact isDigitChar_not_ws
        (by simpa using List.all_eq_true.mp (natRepr_all_digits z.natAbs) c hc)
  · rw [intRepr, if_neg hz] at hc
    exact isDigitChar_not_ws
      (by simpa using List.all_eq_true.mp (natRepr_all_digits z.natAbs) c hc)

theorem intRepr_ne_empty (z : Int) : intRepr z ≠ "" := by
  by_cases hz : z < 0
  · rw [intRepr, if_pos hz]
    intro h
    have : ('-' :: (natRepr z.natAbs).data) = [] := congrArg String.data h
    exact List.cons_ne_nil _ _ this
  · rw [intRepr, if_neg hz]
    intro h
    exact natRepr_data_ne_nil z.natAbs (congrArg String.data h)

theorem jsTrim_intRepr (z : Int) : jsTrim (intRepr z) = intRepr z :=
  jsTrim_eq_self (intRepr_no_ws z)

theorem natRepr_ne_empty (n : Nat) : natRepr n ≠ "" := fun h =>
  natRepr_data_ne_nil n (congrArg String.data h)

theorem jsTrim_natRepr (n : Nat) : jsTrim (natRepr n) = natRepr n :=
  jsTrim_eq_self (by
    intro c hc
    exact isDigitChar_not_ws
      (by simpa using List.all_eq_true.mp (natRepr_all_digits n) c hc))

theorem int_toNat_natCast (n : Nat) : ((n : Int)).toNat = n := by omega

/-- Evaluation of validateUint on a whitespace-free literal that BigInt
parses. -/
theorem validateUint_eval {s : String} {n : Int} (bits : Nat)
    (hs1 : s ≠ "") (hs2 : jsTrim s = s) (hparse : jsBigInt s = some n) :
    validateUint s (bits : Int) =
      if n < 0 then .mkErr "Must be a non-negative number"
      else if n > 2 ^ bits - 1 then
        .mkErr ("Value exceeds uint" ++ intRepr (bits : Int) ++ " max")
      else .mkOk (.int n) := by
  unfold validateUint
  rw [if_neg (by push_neg; exact ⟨hs1, hs2⟩)]
  simp only [hparse]
  rw [if_neg (by omega : ¬((bits : Int) < 0)), int_toNat_natCast]

/-- Evaluation of validateInt on a whitespace-free literal that BigInt
parses. -/
theorem validateInt_eval {s : String} {n : Int} (bits : Nat) (hbits : 1 ≤ bits)
    (hs1 : s ≠ "") (hs2 : jsTrim s = s) (hparse : jsBigInt s = some n) :
    validateInt s (bits : Int) =
      if n > 2 ^ (bits - 1) - 1 ∨ n < -(2 ^ (bits - 1) : Int) then
        .mkErr ("Value out of range for int" ++ intRepr (bits : Int))
      else .mkOk (.int n) := by
  unfold validateInt
  rw [if_neg (by push_neg; exact ⟨hs1, hs2⟩)]
  simp only [hparse]
  rw [if_neg (by omega : ¬((bits : Int) - 1 < 0)),
    (by omega : ((bits : Int) - 1).toNat = bits - 1)]

theorem two_pow_cast (k : Nat) : ((2 : Int) ^ k) = ((2 ^ k : Nat) : Int) := by
  push_cast
  ring

/-- C3: integer range checking.  For bit width at least 1: every natural
below 2 to the bits is accepted by validateUint from its decimal text and
2 to the bits and minus one are rejected; every integer in the two-sided
int range is accepted by validateInt from its decimal text and one past
each boundary is rejected; any literal with surrounding whitespace is
rejected by both. -/
theorem c3_integer_ranges (bits : Nat) (hbits : 1 ≤ bits) :
    (∀ n : Nat, n ≤ 2 ^ bits - 1 →
      validateUint (natRepr n) (bits : Int) = .mkOk (.int n)) ∧
    validateUint (natRepr (2 ^ bits)) (bits : Int) =
      .mkErr ("Value exceeds uint" ++ intRepr (bits : Int) ++ " max") ∧
    validateUint "-1" (bits : Int) = .mkErr "Must be a non-negative number" ∧
    (∀ z : Int, -(2 ^ (bits - 1) : Int) ≤ z → z ≤ 2 ^ (bits - 1) - 1 →
      validateInt (intRepr z) (bits : Int) = .mkOk (.int z)) ∧
    validateInt (intRepr ((2 : Int) ^ (bits - 1))) (bits : Int) =
      .mkErr ("Value out of range for int" ++ intRepr (bits : Int)) ∧
    validateInt (intRepr (-(2 : Int) ^ (bits - 1) - 1)) (bits : Int) =
      .mkErr ("Value out of range for int" ++ intRepr (bits : Int)) ∧
    (∀ s : String, jsTrim s ≠ s →
      validateUint s (bits : Int) = .mkErr "Invalid number format (no spaces allowed)" ∧
      validateInt s (bits : Int) = .mkErr "Invalid number format (no spaces allowed)") := by
  refine ⟨?_, ?_, ?_, ?_, ?_, ?_, ?_⟩
  · intro n hn
    rw [validateUint_eval bits (natRepr_ne_empty n) (jsTrim_natRepr n) (jsBigInt_natRepr n)]
    have hp : (1 : Nat) ≤ 2 ^ bits := Nat.one_le_two_pow
    rw [if_neg (by omega), if_neg (by rw [two_pow_cast]; omega)]
  · rw [validateUint_eval bits (natRepr_ne_empty _) (jsTrim_natRepr _) (jsBigInt_natRepr _)]
    have hp : (1 : Nat) ≤ 2 ^ bits := Nat.one_le_two_pow
    rw [if_neg (by omega), if_pos (by rw [two_pow_cast]; omega)]
  · rw [show ("-1" : String) = intRepr (-1) from rfl,
      validateUint_eval bits (intRepr_ne_empty _) (jsTrim_intRepr _) (jsBigInt_intRepr _),
      if_pos (by omega)]
  · intro z h1 h2
    rw [validateInt_eval bits hbits (intRepr_ne_empty z) (jsTrim_intRepr z)
      (jsBigInt_intRepr z), if_neg (by push_neg; omega)]
  · rw [validateInt_eval bits hbits (intRepr_ne_empty _) (jsTrim_intRepr _)
      (jsBigInt_intRepr _), if_pos (by left; omega)]
  · rw [validateInt_eval bits hbits (intRepr_ne_empty _) (jsTrim_intRepr _)
      (jsBigInt_intRepr _), if_pos (by right; omega)]
  · intro s hs
    constructor
    · unfold validateUint
      rw [if_pos (Or.inr hs)]
    · unfold validateInt
      rw [if_pos (Or.inr hs)]

/-- Witness for C3 at bit width 8: 255 accepted, 256 and -1 rejected,
-128 accepted, 128 and -129 rejected, a space-padded literal rejected. -/
theorem c3_integer_ranges_witness :
    validateUint "255" 8 = .mkOk (.int 255) ∧
    validateUint "256" 8 = .mkErr "Value exceeds uint8 max" ∧
    validateUint "-1" 8 = .mkErr "Must be a non-negative number" ∧
    validateInt "-128" 8 = .mkOk (.int (-128)) ∧
    validateInt "128" 8 = .mkErr "Value out of range for int8" ∧
    validateInt " 123" 8 = .mkErr "Invalid number format (no spaces allowed)" := by
  have h := c3_integer_ranges 8 (by norm_num)
  refine ⟨?_, ?_, ?_, ?_, ?_, ?_⟩
  · have := h.1 255 (by norm_num)
    simpa using this
  · have := h.2.1
    simpa using this
  · have := h.2.2.1
    simpa using this
  · have := h.2.2.2.1 (-128) (by norm_num) (by norm_num)
    simpa using this
  · have := h.2.2.2.2.1
    simpa using this
  · have := (h.2.2.2.2.2.2 " 123" (by decide)).1
    simpa using this

/-- C1 as stated fails on the code: parseType on uint256[2][3] records
the dimensions in textual order [2, 3], not [3, 2], and a 3-element value
whose elements have 2 entries each is rejected. -/
theorem c1_claim_counterexample :
    parseType "uint256[2][3]" ≠
      { baseType := "uint256", isArray := true, arrayDimensions := [some 3, some 2],
        isTuple := false } ∧
    (validateParameterType "[[1,2],[3,4],[5,6]]" "uint256[2][3]" none).isValid = false ∧
    (validateParameterType "[[1,2],[3,4],[5,6]]" "uint256[2][3]" none).error =
      some "Array must have exactly 2 elements" :=
  ⟨by decide, rfl, rfl⟩

/-- C1 amended: parseType on uint256[2][3] yields baseType uint256 with
arrayDimensions [2, 3] in textual (left-to-right) order, and
validateParameterType against uint256[2][3] requires the supplied value
to be a sequence of exactly 2 elements, each of which validates as
exactly 3 uint256 values. -/
theorem c1_nested_array_dims :
    parseType "uint256[2][3]" =
      { baseType := "uint256", isArray := true, arrayDimensions := [some 2, some 3],
        isTuple := false } ∧
    (∀ (s : String) (l : List Json), jsonParse s = some (.arr l) → l.length ≠ 2 →
      validateParameterType s "uint256[2][3]" none =
        .mkErr "Array must have exactly 2 elements") ∧
    validateParameterType "[[1,2,3],[4,5,6]]" "uint256[2][3]" none =
      .mkOk (.arr [.arr [.int 1, .int 2, .int 3], .arr [.int 4, .int 5, .int 6]]) ∧
    validateParameterType "[[1,2],[3,4]]" "uint256[2][3]" none =
      .mkErr "Invalid element at index 0: Array must have exactly 3 elements" := by
  refine ⟨rfl, ?_, rfl, rfl⟩
  intro s l h hne
  have hstep : validateParameterType s "uint256[2][3]" none =
      validateArrayCore (validateParameterTypeF 13) s "uint256[3]" none (some 2) := rfl
  rw [hstep]
  unfold validateArrayCore
  rw [h]
  simp only [if_pos hne]
  rfl

/-- Witness for C1 amended: a 3-element literal is rejected with the
2-element message. -/
theorem c1_nested_array_dims_witness :
    validateParameterType "[[1,2],[3,4],[5,6]]" "uint256[2][3]" none =
      .mkErr "Array must have exactly 2 elements" :=
  c1_nested_array_dims.2.1 "[[1,2],[3,4],[5,6]]"
    [.arr [.num 1, .num 2], .arr [.num 3, .num 4], .arr [.num 5, .num 6]] rfl (by decide)

/-- C2: the round-trip law fails on the code.  validateBool trims
surrounding whitespace but normalizeParameterValue does not, so the
value " TRUE " validates as the boolean true while the normalizer encodes
it as false; the denormalized text "false" re-validates, but as the wrong
value. -/
theorem c2_roundtrip_bool_bug :
    validateParameterType " TRUE " "bool" none = .mkOk (.bool true) ∧
    normalizeParameterValue " TRUE " "bool" none = .ok (.bool false) ∧
    denormalizeParameterValue (.bool false) "bool" none = "false" ∧
    validateParameterType "false" "bool" none = .mkOk (.bool false) :=
  ⟨rfl, rfl, rfl, rfl⟩

/-- C4 as stated fails on the code: 0x10 validates against uint256 as the
integer sixteen, but normalizeParameterValue returns the raw text 0x10,
not the canonical decimal text 16. -/
theorem c4_claim_counterexample :
    validateParameterType "0x10" "uint256" none = .mkOk (.int 16) ∧
    normalizeParameterValue "0x10" "uint256" none = .ok (.str "0x10") ∧
    intRepr 16 = "16" ∧ ("0x10" : String) ≠ "16" :=
  ⟨rfl, rfl, rfl, by decide⟩

/-- C4 amended: for integer (uintN / intN) types the normalizer returns
the raw input text unchanged; this is the canonical decimal text exactly
when the accepted input was already written in canonical decimal form. -/
theorem c4_normalize_integer_passthrough (v t : String)
    (components : Option (List AbiParameter))
    (harr : (parseType t).isArray = false)
    (htup : (parseType t).isTuple = false)
    (hint : strStartsWith (parseType t).baseType "uint" = true ∨
            strStartsWith (parseType t).baseType "int" = true) :
    normalizeParameterValue v t components = .ok (.str v) := by
  have haddr : (parseType t).baseType ≠ "address" := by
    intro heq
    rw [heq] at hint
    rcases hint with h | h <;> exact absurd h (by decide)
  unfold normalizeParameterValue validatorFuel
  simp only [normalizeParameterValueF]
  rw [if_neg (by simp [harr]), if_neg (by simp [htup]), if_neg haddr, if_pos hint]

/-- Witness for C4 amended at uint256. -/
theorem c4_normalize_integer_passthrough_witness :
    normalizeParameterValue "1000" "uint256" none = .ok (.str "1000") :=
  c4_normalize_integer_passthrough "1000" "uint256" none rfl rfl (Or.inl rfl)

/-- C6 as stated fails on the code: with a fixed length above 32 and a
value of a different byte count, the rejection carries the length
mismatch message, not the 32-byte ceiling message. -/
theorem c6_claim_counterexample :
    (validateBytes "0x12" (some (.int 40))).isValid = false ∧
    (validateBytes "0x12" (some (.int 40))).error = some "Must be exactly 40 bytes" ∧
    (validateBytes "0x12" (some (.int 40))).error ≠ some "Fixed bytes cannot exceed 32" :=
  ⟨rfl, rfl, by decide⟩

/-- C6 amended: the decoded byte length must equal the fixed length
exactly (0x1234 against 1 invalid, 0x12 against 1 valid); every request
with a fixed length above 32 is rejected, and the rejection carries the
message Fixed bytes cannot exceed 32 exactly when the supplied value is
well-formed hex of exactly that byte count (an earlier shape or length
error wins otherwise). -/
theorem c6_bytes_fixed_length :
    validateBytes "0x1234" (some (.int 1)) = .mkErr "Must be exactly 1 bytes" ∧
    validateBytes "0x12" (some (.int 1)) = .mkOk (.str "0x12") ∧
    (∀ (v : String) (n : Int), 32 < n →
      (validateBytes v (some (.int n))).isValid = false) ∧
    (∀ (l : List Char) (n : Int), 32 < n → l.all isHexChar = true →
      (l.length : Int) = 2 * n →
      validateBytes (String.mk ('0' :: 'x' :: l)) (some (.int n)) =
        .mkErr "Fixed bytes cannot exceed 32") := by
  refine ⟨rfl, rfl, ?_, ?_⟩
  · intro v n hn
    unfold validateBytes
    split_ifs with h1 h2 h3 <;> try rfl
    · simp only []
      split_ifs with h4 h5 <;> try rfl
      exfalso
      omega
  · intro l n hn hhex hlen
    have hne : String.mk ('0' :: 'x' :: l) ≠ "" := by
      intro h
      have := congrArg String.data h
      simp at this
    have hsw : strStartsWith (String.mk ('0' :: 'x' :: l)) "0x" = true := by
      simp [strStartsWith, charsPrefixOf]
    have hhx : hexStringTest (String.mk ('0' :: 'x' :: l)) = true := by
      simpa [hexStringTest] using hhex
    have hblen : ((String.mk ('0' :: 'x' :: l)).length : Int) - 2 = (l.length : Int) := by
      simp [String.length]
      omega
    unfold validateBytes
    rw [if_neg hne, if_neg (by simp [hsw]), if_neg (by simp [hhx])]
    simp only [hblen]
    rw [if_neg (by omega), if_pos (by omega)]

/-- Witness for C6 amended: an 80-hex-digit value against fixed length 40
is rejected with the 32-byte ceiling message. -/
theorem c6_bytes_fixed_length_witness :
    validateBytes (String.mk ('0' :: 'x' :: List.replicate 80 '1')) (some (.int 40)) =
      .mkErr "Fixed bytes cannot exceed 32" :=
  c6_bytes_fixed_length.2.2.2 (List.replicate 80 '1') 40 (by norm_num) (by decide)
    (by decide)

theorem toLowerChar_eq_self {c : Char} (h : ¬(65 ≤ c.toNat ∧ c.toNat ≤ 90)) :
    toLowerChar c = c := by
  rw [toLowerChar, if_neg h]

theorem toLowerChar_toNat {c : Char} (h : 65 ≤ c.toNat ∧ c.toNat ≤ 90) :
    (toLowerChar c).toNat = c.toNat + 32 := by
  rw [toLowerChar, if_pos h, charToNat_ofNat (by omega)]

/-- Lowercasing a hex digit of any case yields a lowercase hex digit, and
lowercasing is idempotent on it. -/
theorem isLowerHex_toLower {c : Char} (h : isHexChar c = true) :
    isLowerHexChar (toLowerChar c) = true ∧ toLowerChar (toLowerChar c) = toLowerChar c := by
  have hr : (48 ≤ c.toNat ∧ c.toNat ≤ 57) ∨ (97 ≤ c.toNat ∧ c.toNat ≤ 102) ∨
      (65 ≤ c.toNat ∧ c.toNat ≤ 70) := by
    simpa [isHexChar, isDigitChar] using h
  rcases hr with h1 | h1 | h1
  · rw [toLowerChar_eq_self (by omega)]
    refine ⟨by simp [isLowerHexChar, isDigitChar]; omega, toLowerChar_eq_self (by omega)⟩
  · rw [toLowerChar_eq_self (by omega)]
    refine ⟨by simp [isLowerHexChar, isDigitChar]; omega, toLowerChar_eq_self (by omega)⟩
  · have ht := toLowerChar_toNat (by omega : 65 ≤ c.toNat ∧ c.toNat ≤ 90)
    refine ⟨by simp [isLowerHexChar, isDigitChar, ht]; omega,
      toLowerChar_eq_self (by rw [ht]; omega)⟩

/-- C7: every 0x-prefixed 40-hex-digit string of any letter case
validates with the lowercase form as its normalized value, and
re-validating the lowercase form is a no-op. -/
theorem c7_validate_address_idempotent (l : List Char) (hlen : l.length = 40)
    (hhex : ∀ c ∈ l, isHexChar c = true) :
    jsToLower (String.mk ('0' :: 'x' :: l)) = String.mk ('0' :: 'x' :: l.map toLowerChar) ∧
    validateAddress (String.mk ('0' :: 'x' :: l)) =
      .mkOk (.str (String.mk ('0' :: 'x' :: l.map toLowerChar))) ∧
    validateAddress (String.mk ('0' :: 'x' :: l.map toLowerChar)) =
      .mkOk (.str (String.mk ('0' :: 'x' :: l.map toLowerChar))) := by
  have hlow0 : toLowerChar '0' = '0' := by decide
  have hlowx : toLowerChar 'x' = 'x' := by decide
  have hmap : jsToLower (String.mk ('0' :: 'x' :: l)) =
      String.mk ('0' :: 'x' :: l.map toLowerChar) := by
    simp [jsToLower, hlow0, hlowx]
  have hidem : (l.map toLowerChar).map toLowerChar = l.map toLowerChar := by
    rw [List.map_map]
    exact List.map_congr_left (fun c hc => (isLowerHex_toLower (hhex c hc)).2)
  have hmap2 : jsToLower (String.mk ('0' :: 'x' :: l.map toLowerChar)) =
      String.mk ('0' :: 'x' :: l.map toLowerChar) := by
    simp [jsToLower, hlow0, hlowx, hidem]
  have htest : addressRegexTest (String.mk ('0' :: 'x' :: l.map toLowerChar)) = true := by
    have hred : addressRegexTest (String.mk ('0' :: 'x' :: l.map toLowerChar)) =
        ((l.map toLowerChar).length = 40 && (l.map toLowerChar).all isLowerHexChar) := rfl
    rw [hred]
    simp only [List.length_map, hlen, List.all_eq_true, Bool.and_eq_true]
    refine ⟨by simp, ?_⟩
    intro c hc
    obtain ⟨a, ha, rfl⟩ := List.mem_map.mp hc
    exact (isLowerHex_toLower (hhex a ha)).1
  have hne1 : String.mk ('0' :: 'x' :: l) ≠ "" := by
    intro h
    have := congrArg String.data h
    simp at this
  have hne2 : String.mk ('0' :: 'x' :: l.map toLowerChar) ≠ "" := by
    intro h
    have := congrArg String.data h
    simp at this
  refine ⟨hmap, ?_, ?_⟩
  · unfold validateAddress
    rw [if_neg hne1]
    simp only [hmap, htest, if_true]
  · unfold validateAddress
    rw [if_neg hne2]
    simp only [hmap2, htest, if_true]

/-- Witness for C7 at a concrete mixed-case address. -/
theorem c7_validate_address_idempotent_witness :
    validateAddress "0xAbCdEf1234567890123456789012345678901234" =
      .mkOk (.str "0xabcdef1234567890123456789012345678901234") ∧
    validateAddress "0xabcdef1234567890123456789012345678901234" =
      .mkOk (.str "0xabcdef1234567890123456789012345678901234") := by
  have h := c7_validate_address_idempotent
    "AbCdEf1234567890123456789012345678901234".data (by decide) (by decide)
  exact ⟨h.2.1, h.2.2⟩

/-! ## Supporting lemmas: the tuple field loop -/

theorem validateFieldsCore_missing_invalid (recur : Validator)
    (fields : List (String × Json)) :
    ∀ (comps : List AbiParameter) (acc : List (String × ParameterValue))
      (comp : AbiParameter), comp ∈ comps → jsObjLookup fields comp.name = none →
      (validateFieldsCore recur fields comps acc).isValid = false := by
  intro comps
  induction comps with
  | nil => intro acc comp h; exact absurd h (List.not_mem_nil comp)
  | cons c rest ih =>
    intro acc comp hmem hnone
    rcases List.mem_cons.mp hmem with rfl | hmem
    · unfold validateFieldsCore
      rw [hnone]
      rfl
    · unfold validateFieldsCore
      cases hl : jsObjLookup fields c.name with
      | none => rfl
      | some cv =>
        dsimp only
        by_cases hv : (recur (jsonToValueString cv) c.type c.components).isValid = true
        · rw [if_pos hv]
          exact ih _ comp hmem hnone
        · rw [if_neg hv]
          rfl

theorem validateFieldsCore_first_missing (recur : Validator)
    (fields : List (String × Json)) :
    ∀ (pre : List AbiParameter) (comp : AbiParameter) (post : List AbiParameter)
      (acc : List (String × ParameterValue)),
      (∀ q ∈ pre, ∃ j, jsObjLookup fields q.name = some j ∧
        (recur (jsonToValueString j) q.type q.components).isValid = true) →
      jsObjLookup fields comp.name = none →
      validateFieldsCore recur fields (pre ++ comp :: post) acc =
        .mkErr ("Missing required field: " ++ comp.name) := by
  intro pre
  induction pre with
  | nil =>
    intro comp post acc _ hnone
    show validateFieldsCore recur fields (comp :: post) acc = _
    unfold validateFieldsCore
    rw [hnone]
  | cons q rest ih =>
    intro comp post acc hpre hnone
    obtain ⟨j, hj, hv⟩ := hpre q (List.mem_cons_self q rest)
    show validateFieldsCore recur fields (q :: (rest ++ comp :: post)) acc = _
    unfold validateFieldsCore
    rw [hj]
    dsimp only
    rw [if_pos hv]
    exact ih comp post _ (fun x hx => hpre x (List.mem_cons_of_mem q hx)) hnone

theorem validateFieldsCore_valid_shape (recur : Validator)
    (fields : List (String × Json)) :
    ∀ (comps : List AbiParameter) (acc : List (String × ParameterValue)),
      (validateFieldsCore recur fields comps acc).isValid = true →
      ∃ vals, (validateFieldsCore recur fields comps acc).normalizedValue =
          some (.obj (acc.reverse ++ vals)) ∧
        vals.map Prod.fst = comps.map AbiParameter.name := by
  intro comps
  induction comps with
  | nil =>
    intro acc _
    exact ⟨[], by simp [validateFieldsCore, ParameterValidationResult.mkOk], by simp⟩
  | cons c rest ih =>
    intro acc h
    unfold validateFieldsCore at h ⊢
    cases hl : jsObjLookup fields c.name with
    | none =>
      rw [hl] at h
      simp [ParameterValidationResult.mkErr] at h
    | some cv =>
      rw [hl] at h
      dsimp only at h ⊢
      by_cases hv : (recur (jsonToValueString cv) c.type c.components).isValid = true
      · rw [if_pos hv] at h ⊢
        obtain ⟨vals, h1, h2⟩ := ih _ h
        refine ⟨(c.name,
          (recur (jsonToValueString cv) c.type c.components).normalizedValue.getD .nullish) ::
            vals, ?_, by simp [h2]⟩
        rw [h1]
        simp
      · rw [if_neg hv] at h
        simp [ParameterValidationResult.mkErr] at h

/-- C5: tuple validation.  Over a parsed JSON object: a declared
component name missing from the object makes the result invalid; with
every earlier component present and validating, the first missing name
(in component-declaration order) produces the Missing required field
error; and a valid result maps field names to normalized values in
component-declaration order, whatever the input object's key order. -/
theorem c5_tuple_required_fields :
    (∀ (f : Nat) (value : String) (comps : List AbiParameter)
        (fields : List (String × Json)) (comp : AbiParameter),
      jsonParse value = some (.obj fields) → comp ∈ comps →
      jsObjLookup fields comp.name = none →
      (validateTupleCore (validateParameterTypeF f) value comps).isValid = false) ∧
    (∀ (f : Nat) (value : String) (fields : List (String × Json))
        (pre : List AbiParameter) (comp : AbiParameter) (post : List AbiParameter),
      jsonParse value = some (.obj fields) →
      (∀ q ∈ pre, ∃ j, jsObjLookup fields q.name = some j ∧
        (validateParameterTypeF f (jsonToValueString j) q.type q.components).isValid = true) →
      jsObjLookup fields comp.name = none →
      validateTupleCore (validateParameterTypeF f) value (pre ++ comp :: post) =
        .mkErr ("Missing required field: " ++ comp.name)) ∧
    (∀ (f : Nat) (value : String) (comps : List AbiParameter)
        (fields : List (String × Json)),
      jsonParse value = some (.obj fields) →
      (validateTupleCore (validateParameterTypeF f) value comps).isValid = true →
      ∃ vals, (validateTupleCore (validateParameterTypeF f) value comps).normalizedValue =
          some (.obj vals) ∧
        vals.map Prod.fst = comps.map AbiParameter.name) := by
  refine ⟨?_, ?_, ?_⟩
  · intro f value comps fields comp hparse hmem hnone
    unfold validateTupleCore
    rw [hparse]
    exact validateFieldsCore_missing_invalid _ fields comps [] comp hmem hnone
  · intro f value fields pre comp post hparse hpre hnone
    unfold validateTupleCore
    rw [hparse]
    exact validateFieldsCore_first_missing _ fields pre comp post [] hpre hnone
  · intro f value comps fields hparse h
    unfold validateTupleCore at h ⊢
    rw [hparse] at h ⊢
    obtain ⟨vals, h1, h2⟩ := validateFieldsCore_valid_shape _ fields comps [] h
    exact ⟨vals, by simpa using h1, h2⟩

/-- Witness for C5: the to/amount tuple scenario, with amount omitted,
and the success case listing fields in declaration order. -/
theorem c5_tuple_required_fields_witness :
    validateTupleCore (validateParameterTypeF 8)
      "\x7b\"to\": \"0x1234567890123456789012345678901234567890\"\x7d"
      [.mk "to" "address" none, .mk "amount" "uint256" none] =
      .mkErr "Missing required field: amount" ∧
    ∃ vals,
      (validateTupleCore (validateParameterTypeF 8)
        "\x7b\"amount\": \"1000\", \"to\": \"0x1234567890123456789012345678901234567890\"\x7d"
        [.mk "to" "address" none, .mk "amount" "uint256" none]).normalizedValue =
          some (.obj vals) ∧
      vals.map Prod.fst = ["to", "amount"] := by
  constructor
  · exact c5_tuple_required_fields.2.1 8
      "\x7b\"to\": \"0x1234567890123456789012345678901234567890\"\x7d"
      [("to", .str "0x1234567890123456789012345678901234567890")]
      [.mk "to" "address" none] (.mk "amount" "uint256" none) [] rfl
      (by
        intro q hq
        simp only [List.mem_singleton] at hq
        subst hq
        exact ⟨.str "0x1234567890123456789012345678901234567890", rfl, rfl⟩)
      rfl
  · exact c5_tuple_required_fields.2.2 8
      "\x7b\"amount\": \"1000\", \"to\": \"0x1234567890123456789012345678901234567890\"\x7d"
      [.mk "to" "address" none, .mk "amount" "uint256" none]
      [("amount", .str "1000"), ("to", .str "0x1234567890123456789012345678901234567890")]
      rfl rfl

theorem mkOk_ne_mkErr (v : ParameterValue) (e : String) :
    ParameterValidationResult.mkOk v ≠ .mkErr e := by
  intro h
  have := congrArg ParameterValidationResult.isValid h
  simp [ParameterValidationResult.mkOk, ParameterValidationResult.mkErr] at this

theorem mkErr_inj {a b : String} (h : ParameterValidationResult.mkErr a = .mkErr b) :
    a = b := by
  have := congrArg ParameterValidationResult.error h
  simpa [ParameterValidationResult.mkErr] using this

theorem append_left_cancel_str {a b c : String} (h : a ++ b = a ++ c) : b = c := by
  have := congrArg String.data h
  simp [String.data_append] at this
  exact String.ext this

theorem invalid_field_ne_missing (y z n : String) :
    "Invalid field \"" ++ y ++ "\": " ++ z ≠ "Missing required field: " ++ n := by
  intro h
  have hd : ("Invalid field \"" ++ y ++ "\": " ++ z).data.head? =
      ("Missing required field: " ++ n).data.head? := by rw [h]
  rw [show ("Invalid field \"" ++ y ++ "\": " ++ z).data =
      'I' :: ("nvalid field \"".data ++ y.data ++ "\": ".data ++ z.data) by
        simp only [String.data_append,
          show "Invalid field \"".data = 'I' :: "nvalid field \"".data from rfl,
          List.cons_append, List.append_assoc]] at hd
  rw [show ("Missing required field: " ++ n).data =
      'M' :: ("issing required field: ".data ++ n.data) by
        simp only [String.data_append,
          show "Missing required field: ".data = 'M' :: "issing required field: ".data from rfl,
          List.cons_append]] at hd
  simp at hd

/-- Every Missing required field error names a component whose key is
absent from the object. -/
theorem validateFieldsCore_error_names (recur : Validator)
    (fields : List (String × Json)) :
    ∀ (comps : List AbiParameter) (acc : List (String × ParameterValue)) (n : String),
      validateFieldsCore recur fields comps acc =
        .mkErr ("Missing required field: " ++ n) →
      ∃ comp ∈ comps, comp.name = n ∧ jsObjLookup fields comp.name = none := by
  intro comps
  induction comps with
  | nil =>
    intro acc n h
    exact absurd h (mkOk_ne_mkErr _ _)
  | cons c rest ih =>
    intro acc n h
    unfold validateFieldsCore at h
    cases hl : jsObjLookup fields c.name with
    | none =>
      rw [hl] at h
      dsimp only at h
      exact ⟨c, List.mem_cons_self c rest, append_left_cancel_str (mkErr_inj h), hl⟩
    | some cv =>
      rw [hl] at h
      dsimp only at h
      by_cases hv : (recur (jsonToValueString cv) c.type c.components).isValid = true
      · rw [if_pos hv] at h
        obtain ⟨comp, hm, hn, hlk⟩ := ih _ n h
        exact ⟨comp, List.mem_cons_of_mem _ hm, hn, hlk⟩
      · rw [if_neg hv] at h
        exact absurd (mkErr_inj h) (invalid_field_ne_missing _ _ _)

/-- C10: in the tuple field loop, the Missing required field error for a
component is produced exactly when its key maps to undefined: an absent
key yields it, a present key never does (a JSON null value counts as
present), and a null value for a uint256 component forwards the text
null to the scalar validator, yielding the nested number-format error. -/
theorem c10_null_counts_as_present :
    (∀ (F : Nat) (fields : List (String × Json)) (comp : AbiParameter)
        (rest : List AbiParameter) (acc : List (String × ParameterValue)),
      jsObjLookup fields comp.name = none →
      validateFieldsCore (validateParameterTypeF F) fields (comp :: rest) acc =
        .mkErr ("Missing required field: " ++ comp.name)) ∧
    (∀ (F : Nat) (fields : List (String × Json)) (comp : AbiParameter)
        (rest : List AbiParameter) (acc : List (String × ParameterValue)) (j : Json),
      jsObjLookup fields comp.name = some j →
      validateFieldsCore (validateParameterTypeF F) fields (comp :: rest) acc ≠
        .mkErr ("Missing required field: " ++ comp.name)) ∧
    (∀ (F : Nat) (fields : List (String × Json)) (comp : AbiParameter)
        (rest : List AbiParameter) (acc : List (String × ParameterValue)),
      jsObjLookup fields comp.name = some .null →
      comp.type = "uint256" →
      validateFieldsCore (validateParameterTypeF (F + 1)) fields (comp :: rest) acc =
        .mkErr ("Invalid field \"" ++ comp.name ++ "\": " ++ "Invalid number format")) := by
  refine ⟨?_, ?_, ?_⟩
  · intro F fields comp rest acc hnone
    exact validateFieldsCore_first_missing _ fields [] comp rest acc (by simp) hnone
  · intro F fields comp rest acc j hl h
    obtain ⟨comp2, _, hn, hlk⟩ :=
      validateFieldsCore_error_names _ fields (comp :: rest) acc comp.name h
    rw [hn, hl] at hlk
    cases hlk
  · intro F fields comp rest acc hl htype
    have hstep : validateParameterTypeF (F + 1) (jsonToValueString Json.null)
        comp.type comp.components = .mkErr "Invalid number format" := by
      rw [htype]
      rfl
    unfold validateFieldsCore
    rw [hl]
    dsimp only
    rw [hstep]
    simp [ParameterValidationResult.mkErr]

/-- Witness for C10: an explicit null amount in the to/amount tuple is
present but fails the uint256 validator with the nested error. -/
theorem c10_null_counts_as_present_witness :
    validateFieldsCore (validateParameterTypeF 8) [("amount", Json.null)]
      [.mk "amount" "uint256" none] [] =
      .mkErr ("Invalid field \"" ++ "amount" ++ "\": " ++ "Invalid number format") :=
  c10_null_counts_as_present.2.2 7 [("amount", Json.null)] (.mk "amount" "uint256" none)
    [] [] rfl rfl

/-! ## Supporting lemmas: every validator returns a well-formed outcome -/

theorem wf_mkOk (v : ParameterValue) : wellFormedOutcome (.mkOk v) :=
  Or.inl ⟨rfl, rfl, v, rfl⟩

theorem wf_mkErr (e : String) : wellFormedOutcome (.mkErr e) :=
  Or.inr ⟨rfl, rfl, e, rfl⟩

theorem wf_validateAddress (v : String) : wellFormedOutcome (validateAddress v) := by
  unfold validateAddress
  dsimp only
  split_ifs <;> first | exact wf_mkErr _ | exact wf_mkOk _

theorem wf_validateUint (v : String) (bits : Int) :
    wellFormedOutcome (validateUint v bits) := by
  unfold validateUint
  by_cases h1 : v = "" ∨ jsTrim v ≠ v
  · rw [if_pos h1]
    exact wf_mkErr _
  · rw [if_neg h1]
    cases jsBigInt v with
    | none => exact wf_mkErr _
    | some num =>
      dsimp only
      split_ifs <;> first | exact wf_mkErr _ | exact wf_mkOk _

theorem wf_validateInt (v : String) (bits : Int) :
    wellFormedOutcome (validateInt v bits) := by
  unfold validateInt
  by_cases h1 : v = "" ∨ jsTrim v ≠ v
  · rw [if_pos h1]
    exact wf_mkErr _
  · rw [if_neg h1]
    cases jsBigInt v with
    | none => exact wf_mkErr _
    | some num =>
      dsimp only
      split_ifs <;> first | exact wf_mkErr _ | exact wf_mkOk _

theorem wf_validateBool (v : String) : wellFormedOutcome (validateBool v) := by
  unfold validateBool
  dsimp only
  split_ifs <;> first | exact wf_mkErr _ | exact wf_mkOk _

theorem wf_validateBytes (v : String) (fl : Option BytesLength) :
    wellFormedOutcome (validateBytes v fl) := by
  unfold validateBytes
  by_cases h1 : v = ""
  · rw [if_pos h1]
    exact wf_mkErr _
  · rw [if_neg h1]
    by_cases h2 : ¬ strStartsWith v "0x" = true
    · rw [if_pos h2]
      exact wf_mkErr _
    · rw [if_neg h2]
      by_cases h3 : ¬ hexStringTest v = true
      · rw [if_pos h3]
        exact wf_mkErr _
      · rw [if_neg h3]
        dsimp only
        cases fl with
        | none => exact wf_mkOk _
        | some b =>
          cases b with
          | nan => exact wf_mkErr _
          | int n =>
            dsimp only
            split_ifs <;> first | exact wf_mkErr _ | exact wf_mkOk _

theorem wf_validateString (v : String) : wellFormedOutcome (validateString v) :=
  wf_mkOk _

theorem wf_validateElemsCore (recur : Validator) (et : String)
    (c : Option (List AbiParameter)) :
    ∀ (elems : List Json) (i : Nat) (acc : List ParameterValue),
      wellFormedOutcome (validateElemsCore recur et c elems i acc) := by
  intro elems
  induction elems with
  | nil => intro i acc; exact wf_mkOk _
  | cons e rest ih =>
    intro i acc
    unfold validateElemsCore
    split_ifs
    · exact ih _ _
    · exact wf_mkErr _

theorem wf_validateArrayCore (recur : Validator) (v et : String)
    (c : Option (List AbiParameter)) (len : Option Nat) :
    wellFormedOutcome (validateArrayCore recur v et c len) := by
  unfold validateArrayCore
  cases jsonParse v with
  | none => exact wf_mkErr _
  | some parsed =>
    dsimp only
    cases parsed with
    | arr elems =>
      cases len with
      | none => exact wf_validateElemsCore recur et c elems 0 []
      | some n =>
        dsimp only
        split_ifs
        · exact wf_mkErr _
        · exact wf_validateElemsCore recur et c elems 0 []
    | null => exact wf_mkErr _
    | bool b => exact wf_mkErr _
    | num n => exact wf_mkErr _
    | str s => exact wf_mkErr _
    | obj fields => exact wf_mkErr _

theorem wf_validateFieldsCore (recur : Validator) (fields : List (String × Json)) :
    ∀ (comps : List AbiParameter) (acc : List (String × ParameterValue)),
      wellFormedOutcome (validateFieldsCore recur fields comps acc) := by
  intro comps
  induction comps with
  | nil => intro acc; exact wf_mkOk _
  | cons c rest ih =>
    intro acc
    unfold validateFieldsCore
    cases jsObjLookup fields c.name with
    | none => exact wf_mkErr _
    | some cv =>
      dsimp only
      split_ifs
      · exact ih _
      · exact wf_mkErr _

theorem wf_validateTupleCore (recur : Validator) (v : String)
    (comps : List AbiParameter) : wellFormedOutcome (validateTupleCore recur v comps) := by
  unfold validateTupleCore
  cases jsonParse v with
  | none => exact wf_mkErr _
  | some parsed =>
    dsimp only
    cases parsed with
    | obj fields => exact wf_validateFieldsCore recur fields comps []
    | null => exact wf_mkErr _
    | bool b => exact wf_mkErr _
    | num n => exact wf_mkErr _
    | str s => exact wf_mkErr _
    | arr elems => exact wf_mkErr _

theorem wf_validateParameterTypeF :
    ∀ (fuel : Nat) (v t : String) (c : Option (List AbiParameter)),
      wellFormedOutcome (validateParameterTypeF fuel v t c) := by
  intro fuel
  induction fuel with
  | zero => intro v t c; exact wf_mkErr _
  | succ f ih =>
    intro v t c
    unfold validateParameterTypeF
    dsimp only
    split_ifs
    · exact wf_validateArrayCore _ _ _ _ _
    · cases c with
      | none => exact wf_mkErr _
      | some comps =>
        dsimp only
        split_ifs
        · exact wf_mkErr _
        · exact wf_validateTupleCore _ _ _
    · exact wf_validateAddress _
    · exact wf_validateUint _ _
    · exact wf_validateInt _ _
    · exact wf_validateBool _
    · exact wf_validateBytes _ _
    · exact wf_validateBytes _ _
    · exact wf_validateString _
    · exact wf_mkOk _

/-- C9: totality of validation.  The composite validators convert a
failed JSON parse into the Invalid JSON array format / Invalid JSON
object format outcomes for any recursive callee, and validateParameterType,
validateArray and validateTuple always return a well-formed
ValidationOutcome (valid with a normalized value, or invalid with an
error message) - failures are data, not control flow. -/
theorem c9_validation_total :
    (∀ (recur : Validator) (v et : String) (c : Option (List AbiParameter))
        (len : Option Nat), jsonParse v = none →
      validateArrayCore recur v et c len = .mkErr "Invalid JSON array format") ∧
    (∀ (recur : Validator) (v : String) (comps : List AbiParameter),
      jsonParse v = none →
      validateTupleCore recur v comps = .mkErr "Invalid JSON object format") ∧
    (∀ (v t : String) (c : Option (List AbiParameter)),
      wellFormedOutcome (validateParameterType v t c)) ∧
    (∀ (v et : String) (c : Option (List AbiParameter)) (len : Option Nat),
      wellFormedOutcome (validateArray v et c len)) ∧
    (∀ (v : String) (comps : List AbiParameter),
      wellFormedOutcome (validateTuple v comps)) := by
  refine ⟨?_, ?_, ?_, ?_, ?_⟩
  · intro recur v et c len h
    unfold validateArrayCore
    rw [h]
  · intro recur v comps h
    unfold validateTupleCore
    rw [h]
  · intro v t c
    exact wf_validateParameterTypeF _ v t c
  · intro v et c len
    exact wf_validateArrayCore _ v et c len
  · intro v comps
    exact wf_validateTupleCore _ v comps

/-- Witness for C9: malformed JSON handed to the array and tuple
validators produces the two format errors. -/
theorem c9_validation_total_witness :
    validateArrayCore (validateParameterTypeF 8) "not json" "uint256" none none =
      .mkErr "Invalid JSON array format" ∧
    validateTupleCore (validateParameterTypeF 8) "not json" [.mk "to" "address" none] =
      .mkErr "Invalid JSON object format" ∧
    wellFormedOutcome (validateParameterType "123" "uint256" none) :=
  ⟨c9_validation_total.1 (validateParameterTypeF 8) "not json" "uint256" none none rfl,
   c9_validation_total.2.1 (validateParameterTypeF 8) "not json" [.mk "to" "address" none] rfl,
   c9_validation_total.2.2.1 "123" "uint256" none⟩

/-! ## Supporting lemmas: the buildAction parameter gate -/

theorem checkParameters_first_missing (parameters : List (String × String)) :
    ∀ (pre : List AbiParameter) (p : AbiParameter) (post : List AbiParameter),
      (∀ q ∈ pre, ∃ v, paramLookup parameters q.name = some v ∧
        (validateParameterType v q.type q.components).isValid = true) →
      paramLookup parameters p.name = none →
      checkParameters parameters (pre ++ p :: post) =
        some ⟨"Missing parameter: " ++ p.name, .invalidParameter⟩ := by
  intro pre
  induction pre with
  | nil =>
    intro p post _ hnone
    show checkParameters parameters (p :: post) = _
    unfold checkParameters
    rw [hnone]
  | cons q rest ih =>
    intro p post hpre hnone
    obtain ⟨v, hv1, hv2⟩ := hpre q (List.mem_cons_self q rest)
    show checkParameters parameters (q :: (rest ++ p :: post)) = _
    unfold checkParameters
    rw [hv1]
    dsimp only
    rw [if_pos hv2]
    exact ih p post (fun x hx => hpre x (List.mem_cons_of_mem q hx)) hnone

theorem checkParameters_missing_isSome (parameters : List (String × String)) :
    ∀ (inputs : List AbiParameter) (p : AbiParameter), p ∈ inputs →
      paramLookup parameters p.name = none →
      ∃ e, checkParameters parameters inputs = some e := by
  intro inputs
  induction inputs with
  | nil => intro p h; exact absurd h (List.not_mem_nil p)
  | cons q rest ih =>
    intro p hmem hnone
    rcases List.mem_cons.mp hmem with rfl | hmem
    · unfold checkParameters
      rw [hnone]
      exact ⟨_, rfl⟩
    · unfold checkParameters
      cases hl : paramLookup parameters q.name with
      | none => exact ⟨_, rfl⟩
      | some v =>
        dsimp only
        by_cases hv : (validateParameterType v q.type q.components).isValid = true
        · rw [if_pos hv]
          exact ih p hmem hnone
        · rw [if_neg hv]
          exact ⟨_, rfl⟩

/-- C8: buildAction gates and success postcondition.  With a resolvable
signature: when the first problematic declared input (in order) has no
entry in the parameter map, buildAction fails with an error naming that
parameter; any missing declared input prevents an Action from being
produced; and on success the Action carries the lowercased contract
address, the canonical signature of the resolved function, its name, the
codec's hex calldata for the prepared arguments, the single resolved
descriptor as the abi, and the caller-supplied value. -/
theorem c8_buildAction_gates :
    (∀ (codec : Codec) (input : BuildActionInput) (func : AbiFunction)
        (pre post : List AbiParameter) (p : AbiParameter),
      isValidAddress input.contractAddress = true →
      findFunctionBySignature input.functionSignature input.abi = some func →
      func.inputs = pre ++ p :: post →
      (∀ q ∈ pre, ∃ v, paramLookup input.parameters q.name = some v ∧
        (validateParameterType v q.type q.components).isValid = true) →
      paramLookup input.parameters p.name = none →
      buildAction codec input =
        .error ⟨"Missing parameter: " ++ p.name, .invalidParameter⟩) ∧
    (∀ (codec : Codec) (input : BuildActionInput) (func : AbiFunction) (p : AbiParameter),
      findFunctionBySignature input.functionSignature input.abi = some func →
      p ∈ func.inputs → paramLookup input.parameters p.name = none →
      ∀ a : Action, buildAction codec input ≠ .ok a) ∧
    (∀ (codec : Codec) (input : BuildActionInput) (func : AbiFunction) (a : Action),
      findFunctionBySignature input.functionSignature input.abi = some func →
      buildAction codec input = .ok a →
      a.contractAddress = jsToLower input.contractAddress ∧
      a.functionSignature = getFunctionSignature func ∧
      a.functionName = func.name ∧
      a.abi = [func] ∧
      a.value = input.value ∧
      ∃ args, prepareParametersForEncoding input.parameters func.inputs = .ok args ∧
        codec func args = .ok a.calldata) := by
  refine ⟨?_, ?_, ?_⟩
  · intro codec input func pre post p haddr hfind hinputs hpre hnone
    unfold buildAction
    rw [if_neg (by simp [haddr]), hfind]
    dsimp only
    rw [hinputs, checkParameters_first_missing input.parameters pre p post hpre hnone]
  · intro codec input func p hfind hmem hnone a hok
    unfold buildAction at hok
    by_cases haddr : isValidAddress input.contractAddress = true
    · rw [if_neg (by simp [haddr]), hfind] at hok
      dsimp only at hok
      obtain ⟨e, he⟩ := checkParameters_missing_isSome input.parameters func.inputs p hmem hnone
      rw [he] at hok
      exact Except.noConfusion hok
    · rw [if_pos haddr] at hok
      exact Except.noConfusion hok
  · intro codec input func a hfind hok
    unfold buildAction at hok
    by_cases haddr : isValidAddress input.contractAddress = true
    · rw [if_neg (by simp [haddr]), hfind] at hok
      dsimp only at hok
      cases hchk : checkParameters input.parameters func.inputs with
      | some e =>
        rw [hchk] at hok
        exact Except.noConfusion hok
      | none =>
        rw [hchk] at hok
        dsimp only at hok
        rw [show encodeCalldata codec input.abi input.functionSignature input.parameters =
            (match prepareParametersForEncoding input.parameters func.inputs with
             | .error msg => .error ⟨"Failed to encode calldata: " ++ msg, .encodingFailed⟩
             | .ok encodedParams =>
               match codec func encodedParams with
               | .error msg => .error ⟨"Failed to encode calldata: " ++ msg, .encodingFailed⟩
               | .ok calldata => .ok ⟨calldata, getFunctionSignature func⟩) by
          unfold encodeCalldata
          rw [hfind]] at hok
        cases hprep : prepareParametersForEncoding input.parameters func.inputs with
        | error msg =>
          rw [hprep] at hok
          exact Except.noConfusion hok
        | ok args =>
          rw [hprep] at hok
          dsimp only at hok
          cases hcodec : codec func args with
          | error msg =>
            rw [hcodec] at hok
            exact Except.noConfusion hok
          | ok calldata =>
            rw [hcodec] at hok
            dsimp only at hok
            have ha := (Except.ok.inj hok).symm
            subst ha
            exact ⟨rfl, rfl, rfl, rfl, rfl, args, rfl, hcodec⟩
    · rw [if_pos haddr] at hok
      exact Except.noConfusion hok

/-- Witness for C8: a transfer(address,uint256) call against a one-entry
ABI; with the amount entry missing the build fails naming amount, and
with both entries present the returned Action carries the lowercased
address, the canonical signature, the single resolved descriptor and the
codec output. -/
theorem c8_buildAction_gates_witness :
    buildAction (fun _ _ => .ok "0xa9059cbb")
      { contractAddress := "0xAbCdEf1234567890123456789012345678901234"
        functionSignature := "transfer(address,uint256)"
        parameters := [("to", "0x1111111111111111111111111111111111111111")]
        abi := [⟨"transfer", [.mk "to" "address" none, .mk "amount" "uint256" none],
          "nonpayable"⟩]
        value := none } =
      .error ⟨"Missing parameter: " ++ "amount", .invalidParameter⟩ ∧
    ({ contractAddress := "0xabcdef1234567890123456789012345678901234"
       functionSignature := "transfer(address,uint256)"
       functionName := "transfer"
       calldata := "0xa9059cbb"
       abi := [⟨"transfer", [.mk "to" "address" none, .mk "amount" "uint256" none],
         "nonpayable"⟩]
       value := none } : Action).contractAddress =
        jsToLower "0xAbCdEf1234567890123456789012345678901234" ∧
    ∃ args, prepareParametersForEncoding
        [("to", "0x1111111111111111111111111111111111111111"),
         ("amount", "1000000000000000000")]
        [.mk "to" "address" none, .mk "amount" "uint256" none] = .ok args ∧
      (fun (_ : AbiFunction) (_ : List ParameterValue) =>
        (.ok "0xa9059cbb" : Except String String)) ⟨"transfer",
          [.mk "to" "address" none, .mk "amount" "uint256" none], "nonpayable"⟩ args =
        .ok "0xa9059cbb" := by
  refine ⟨?_, ?_, ?_⟩
  · exact c8_buildAction_gates.1 (fun _ _ => .ok "0xa9059cbb")
      { contractAddress := "0xAbCdEf1234567890123456789012345678901234"
        functionSignature := "transfer(address,uint256)"
        parameters := [("to", "0x1111111111111111111111111111111111111111")]
        abi := [⟨"transfer", [.mk "to" "address" none, .mk "amount" "uint256" none],
          "nonpayable"⟩]
        value := none }
      ⟨"transfer", [.mk "to" "address" none, .mk "amount" "uint256" none], "nonpayable"⟩
      [.mk "to" "address" none] [] (.mk "amount" "uint256" none) rfl rfl rfl
      (by
        intro q hq
        simp only [List.mem_singleton] at hq
        subst hq
        exact ⟨"0x1111111111111111111111111111111111111111", rfl, rfl⟩)
      rfl
  · have h := (c8_buildAction_gates.2.2 (fun _ _ => .ok "0xa9059cbb")
      { contractAddress := "0xAbCdEf1234567890123456789012345678901234"
        functionSignature := "transfer(address,uint256)"
        parameters := [("to", "0x1111111111111111111111111111111111111111"),
          ("amount", "1000000000000000000")]
        abi := [⟨"transfer", [.mk "to" "address" none, .mk "amount" "uint256" none],
          "nonpayable"⟩]
        value := none }
      ⟨"transfer", [.mk "to" "address" none, .mk "amount" "uint256" none], "nonpayable"⟩
      { contractAddress := "0xabcdef1234567890123456789012345678901234"
        functionSignature := "transfer(address,uint256)"
        functionName := "transfer"
        calldata := "0xa9059cbb"
        abi := [⟨"transfer", [.mk "to" "address" none, .mk "amount" "uint256" none],
          "nonpayable"⟩]
        value := none } rfl rfl)
    exact h.1
  · have h := (c8_buildAction_gates.2.2 (fun _ _ => .ok "0xa9059cbb")
      { contractAddress := "0xAbCdEf1234567890123456789012345678901234"
        functionSignature := "transfer(address,uint256)"
        parameters := [("to", "0x1111111111111111111111111111111111111111"),
          ("amount", "1000000000000000000")]
        abi := [⟨"transfer", [.mk "to" "address" none, .mk "amount" "uint256" none],
          "nonpayable"⟩]
        value := none }
      ⟨"transfer", [.mk "to" "address" none, .mk "amount" "uint256" none], "nonpayable"⟩
      { contractAddress := "0xabcdef1234567890123456789012345678901234"
        functionSignature := "transfer(address,uint256)"
        functionName := "transfer"
        calldata := "0xa9059cbb"
        abi := [⟨"transfer", [.mk "to" "address" none, .mk "amount" "uint256" none],
          "nonpayable"⟩]
        value := none } rfl rfl)
    exact h.2.2.2.2.2

end DaoActionBuilder
